import Mathlib

/-!
Verification development for the chainofCommand repository.

This file gives a shallow embedding, in Lean 4, of the core subsystems of
the repository: the canonicalizer (`packages/crypto/src/canonicalize.ts`),
the hashing and signing layer (`packages/crypto`), the event factory
(`packages/protocol/src/event-factory.ts`), the append-only ledger
(`packages/store/src/ledger.ts`), the content-addressed artifact store
(`ArtifactStore.writeArtifact`), the verifier pipeline
(`packages/verifier/src/verifier.ts`) and the read API event endpoints.

Modelling conventions, used throughout:

* JSON values are the inductive `Json`.  `Json.undef` models the JavaScript
  value `undefined`, which can occur inside objects handed to the
  canonicalizer (e.g. absent optional fields) and is dropped by it.
* SHA-256 (`node:crypto createHash("sha256")`) is an external primitive.
  It is modelled by `sha256Hex`, a deterministic executable digest with the
  same output format (64 lowercase hex characters).  No theorem in this file
  relies on collision resistance, only on determinism and on the literal
  string comparisons the source performs.
* Ed25519 (`node:crypto sign`/`verify`) is modelled symbolically: a key pair
  with seed `k` is the pair of PEM strings `("priv:" ++ k, "pub:" ++ k)`;
  a signature is a deterministic function of the private key and the hash of
  the signed bytes, and verification succeeds exactly for the signature that
  the matching private key produces on the same bytes.
* `String.prototype.localeCompare` (used by `canonicalObject` to sort keys)
  is modelled by `jsLocaleCompare`, the ICU root-collation order restricted
  to ASCII strings: letters compare case-insensitively first, and at equal
  letters lowercase sorts before uppercase.  This is the behaviour of the
  Node.js runtime the repository targets.
* Wall-clock timestamps (`nowIso()`) and generated ULIDs are threaded as
  explicit arguments instead of being read from ambient state.
-/

set_option maxRecDepth 20000
set_option exponentiation.threshold 100000

namespace Coc

/-- JSON value trees, extended with `undef` for the JavaScript `undefined`
value that can appear inside objects passed to the canonicalizer.  Numbers
are modelled as integers: every number the repository canonicalizes
(byte sizes, counts) is an integer in the safe range, where the ECMA-262
`ToString` used by `JSON.stringify` is plain decimal notation. -/
inductive Json where
  | undef : Json
  | null : Json
  | bool (b : Bool) : Json
  | num (n : Int) : Json
  | str (s : String) : Json
  | arr (xs : List Json) : Json
  | obj (kvs : List (String × Json)) : Json
deriving Inhabited

/-- Test for the JavaScript `undefined` value, modelling `x !== undefined`. -/
def Json.isUndef : Json → Bool
  | .undef => true
  | _ => false

mutual

/-- Structural equality of JSON values.  Used to model the `SameValueZero`
key comparison of a JavaScript `Map` on the (string-valued) claim
identifiers the repository stores in it. -/
def Json.beq : Json → Json → Bool
  | .undef, .undef => true
  | .null, .null => true
  | .bool a, .bool b => a == b
  | .num a, .num b => a == b
  | .str a, .str b => a == b
  | .arr a, .arr b => Json.beqList a b
  | .obj a, .obj b => Json.beqPairs a b
  | _, _ => false

/-- Elementwise equality of JSON arrays. -/
def Json.beqList : List Json → List Json → Bool
  | [], [] => true
  | a :: as, b :: bs => Json.beq a b && Json.beqList as bs
  | _, _ => false

/-- Entrywise equality of JSON object entry lists. -/
def Json.beqPairs : List (String × Json) → List (String × Json) → Bool
  | [], [] => true
  | a :: as, b :: bs => a.1 == b.1 && Json.beq a.2 b.2 && Json.beqPairs as bs
  | _, _ => false

end

instance : BEq Json := ⟨Json.beq⟩

/-- Join a list of strings with a separator, modelling `Array.prototype.join`. -/
def joinSep (sep : String) : List String → String
  | [] => ""
  | [x] => x
  | x :: xs => x ++ sep ++ joinSep sep xs

/-- Lower-case hexadecimal digit for a value below 16. -/
def hexDigit (n : Nat) : Char :=
  if n < 10 then Char.ofNat (48 + n) else Char.ofNat (87 + n)

/-- Render a natural number as exactly `w` lowercase hex digits
(most significant first, truncating above `16 ^ w`). -/
def hexOfNat (w : Nat) (n : Nat) : String :=
  let rec go : Nat → Nat → List Char → List Char
    | 0, _, acc => acc
    | k + 1, m, acc => go k (m / 16) (hexDigit (m % 16) :: acc)
  String.mk (go w n [])

/-- UTF-8 byte length of a string, modelling `Buffer.byteLength(s, "utf8")`. -/
def utf8Len (s : String) : Nat :=
  s.data.foldl (fun n c => n + c.utf8Size) 0

/-- Byte strings, encoded as the pair of their big-endian value and their
length in bytes.  The encoding is injective (two byte strings are equal iff
their encodings are), concatenation is constant-depth arithmetic, and the
empty string is `(0, 0)`.  All canonical-JSON byte output of the model uses
this representation. -/
abbrev Bytes := Nat × Nat

/-- The empty byte string. -/
def bnil : Bytes := (0, 0)

/-- Concatenation of byte strings. -/
def bcat (a b : Bytes) : Bytes := (a.1 * 256 ^ b.2 + b.1, a.2 + b.2)

/-- UTF-8 encoding of a single character. -/
def bchar (c : Char) : Bytes :=
  let n := c.toNat
  if n < 128 then (n, 1)
  else if n < 2048 then ((192 + n / 64) * 256 + (128 + n % 64), 2)
  else if n < 65536 then
    (((224 + n / 4096) * 256 + (128 + n / 64 % 64)) * 256 + (128 + n % 64), 3)
  else
    ((((240 + n / 262144) * 256 + (128 + n / 4096 % 64)) * 256 +
        (128 + n / 64 % 64)) * 256 + (128 + n % 64), 4)

/-- UTF-8 bytes of a string. -/
def bstr (s : String) : Bytes :=
  s.data.foldl (fun acc c => bcat acc (bchar c)) bnil

/-- Join byte strings with a separator, modelling `Array.prototype.join`
on the rendered pieces. -/
def bjoin (sep : Bytes) : List Bytes → Bytes
  | [] => bnil
  | [x] => x
  | x :: xs => bcat x (bcat sep (bjoin sep xs))

/-- Model of SHA-256 from `packages/crypto/src/hash.ts` (`sha256Hex`).
The real function is the `node:crypto` SHA-256 digest in lowercase hex; the
model is a deterministic executable digest with the same output format
(64 lowercase hex characters), obtained by reducing the byte string's
value and length modulo a fixed 256-bit modulus.  No proof below depends
on collision resistance. -/
def sha256Hex (b : Bytes) : String :=
  hexOfNat 64 ((b.1 + b.2 * 131 + 5381) % (2 ^ 256 - 189))

/-- Primary collation weight of a character: ASCII letters collate
case-insensitively, everything else by code point. -/
def collPrimary (c : Char) : Nat :=
  if 65 ≤ c.toNat ∧ c.toNat ≤ 90 then c.toNat + 32 else c.toNat

/-- Tertiary (case) collation weight: lowercase before uppercase. -/
def collCase (c : Char) : Nat :=
  if 65 ≤ c.toNat ∧ c.toNat ≤ 90 then 1 else 0

/-- Lexicographic comparison of two weight lists. -/
def lexNat : List Nat → List Nat → Ordering
  | [], [] => .eq
  | [], _ :: _ => .lt
  | _ :: _, [] => .gt
  | a :: as, b :: bs =>
    if a < b then .lt else if b < a then .gt else lexNat as bs

/-- Model of `String.prototype.localeCompare` under the default (root ICU)
locale, restricted to ASCII strings: compare primary weights
(case-insensitive letters) first, then case weights with lowercase first.
Returns an `Ordering` standing for the sign of the JavaScript result. -/
def jsLocaleCompare (a b : String) : Ordering :=
  match lexNat (a.data.map collPrimary) (b.data.map collPrimary) with
  | .eq => lexNat (a.data.map collCase) (b.data.map collCase)
  | o => o

/-- Stable insertion used by `jsSortBy`: the new element goes before the
first element it compares strictly less than. -/
def jsInsert (lt : α → α → Bool) (a : α) : List α → List α
  | [] => [a]
  | b :: bs => if lt a b then a :: b :: bs else b :: jsInsert lt a bs

/-- Stable sort by a boolean strict comparison, modelling
`Array.prototype.sort` with a consistent comparator. -/
def jsSortBy (lt : α → α → Bool) (l : List α) : List α :=
  l.foldl (fun acc a => jsInsert lt a acc) []

/-- JSON string escaping as performed by `JSON.stringify` on the characters
this repository emits: quote and backslash are escaped, common control
characters use their short escapes, other control characters use four-digit
hex escapes, everything else is emitted verbatim. -/
def jsonEscapeChar (c : Char) : String :=
  if c = '"' then "\\\""
  else if c = '\\' then "\\\\"
  else if c = '\n' then "\\n"
  else if c = '\t' then "\\t"
  else if c = '\r' then "\\r"
  else if c.toNat = 8 then "\\b"
  else if c.toNat = 12 then "\\f"
  else if c.toNat < 32 then "\\u" ++ hexOfNat 4 c.toNat
  else String.singleton c

/-- Model of `JSON.stringify` on a string value (after NFC normalization,
which is the identity on the ASCII strings this development uses):
opening quote, escaped characters, closing quote. -/
def bquote (s : String) : Bytes :=
  bcat (bchar '"')
    (bcat (s.data.foldl (fun acc c => bcat acc (bstr (jsonEscapeChar c))) bnil)
      (bchar '"'))

/-- Model of `canonicalNumber` from `canonicalize.ts` on the integer
fragment of JSON numbers: `JSON.stringify` of an integer in the safe range
is its decimal notation, and `-0` does not arise for `Int`. -/
def canonicalNumber (n : Int) : String := toString n

/-- Render a list of canonicalized object entries, sorted with a strict
comparison on the keys.  The source (`canonicalObject`) sorts the entries
before canonicalizing the values; since its comparator reads only the keys,
sorting the already-canonicalized pairs with the same stable sort produces
the identical output bytes. -/
def renderObject (lt : String → String → Bool) (pairs : List (String × Bytes)) : Bytes :=
  let sorted := jsSortBy (fun a b => lt a.1 b.1) pairs
  bcat (bchar '\x7b')
    (bcat
      (bjoin (bchar ',')
        (sorted.map (fun p => bcat (bquote p.1) (bcat (bchar ':') p.2))))
      (bchar '\x7d'))

/-- Key order used by `canonicalObject` in the source:
`left.localeCompare(right)` ascending. -/
def localeLt (a b : String) : Bool := jsLocaleCompare a b = Ordering.lt

/-- Key order demanded by the specification: code-point lexicographic. -/
def codePointLt (a b : String) : Bool :=
  lexNat (a.data.map Char.toNat) (b.data.map Char.toNat) = Ordering.lt

mutual

/-- Model of `canonicalize` from `packages/crypto/src/canonicalize.ts`.
Returns `none` where the source throws (`undefined` reaching the top level
of a value, also inside arrays).  Objects drop `undefined`-valued entries
and sort the remaining keys with `localeCompare`, exactly as the source
does. -/
def canonicalize : Json → Option Bytes
  | .undef => none
  | .null => some (bstr "null")
  | .bool b => some (bstr (if b then "true" else "false"))
  | .num n => some (bstr (canonicalNumber n))
  | .str s => some (bquote s)
  | .arr xs => do
    let parts ← canonicalizeList xs
    pure (bcat (bchar '[') (bcat (bjoin (bchar ',') parts) (bchar ']')))
  | .obj kvs => do
    let pairs ← canonicalizePairs kvs
    pure (renderObject localeLt pairs)

/-- Canonicalize every element of an array. -/
def canonicalizeList : List Json → Option (List Bytes)
  | [] => some []
  | x :: xs => do
    let s ← canonicalize x
    let rest ← canonicalizeList xs
    pure (s :: rest)

/-- Canonicalize the entries of an object, dropping entries whose value is
`undefined` (the `filter` in `canonicalObject`). -/
def canonicalizePairs : List (String × Json) → Option (List (String × Bytes))
  | [] => some []
  | kv :: kvs =>
    if kv.2.isUndef then canonicalizePairs kvs
    else do
      let v ← canonicalize kv.2
      let rest ← canonicalizePairs kvs
      pure ((kv.1, v) :: rest)

end

/-- Canonical bytes of a value that the source always canonicalizes
successfully (event bodies and signed subsets contain no `undefined`).
The fallback is unreachable in those uses. -/
def canonBytes (j : Json) : Bytes := (canonicalize j).getD bnil

mutual

/-- Specification-order variant of the canonicalizer: identical to
`canonicalize` except that object keys are sorted by code-point
lexicographic order, which is what the specification (and RFC 8785, cited
by the repository's own cryptography document) prescribes.  Used only to
compare against the behaviour of the source. -/
def canonicalizeCodePoint : Json → Option Bytes
  | .undef => none
  | .null => some (bstr "null")
  | .bool b => some (bstr (if b then "true" else "false"))
  | .num n => some (bstr (canonicalNumber n))
  | .str s => some (bquote s)
  | .arr xs => do
    let parts ← canonicalizeCodePointList xs
    pure (bcat (bchar '[') (bcat (bjoin (bchar ',') parts) (bchar ']')))
  | .obj kvs => do
    let pairs ← canonicalizeCodePointPairs kvs
    pure (renderObject codePointLt pairs)

/-- Code-point variant of `canonicalizeList`. -/
def canonicalizeCodePointList : List Json → Option (List Bytes)
  | [] => some []
  | x :: xs => do
    let s ← canonicalizeCodePoint x
    let rest ← canonicalizeCodePointList xs
    pure (s :: rest)

/-- Code-point variant of `canonicalizePairs`. -/
def canonicalizeCodePointPairs : List (String × Json) → Option (List (String × Bytes))
  | [] => some []
  | kv :: kvs =>
    if kv.2.isUndef then canonicalizeCodePointPairs kvs
    else do
      let v ← canonicalizeCodePoint kv.2
      let rest ← canonicalizeCodePointPairs kvs
      pure ((kv.1, v) :: rest)

end

/-! ### Cryptographic primitives (symbolic model)

The repository signs with Ed25519 over PEM-encoded keys
(`packages/crypto`, file with `signBytes`/`verifyBytes`).  Key pairs are
modelled symbolically: the pair with seed `k` is
`("priv:" ++ k, "pub:" ++ k)`.  A signature is a deterministic function of
the private key and the digest of the signed bytes, and verification
succeeds exactly for the signature produced by the matching private key on
the same bytes — the defining property of the real scheme that the
verifier relies on. -/

/-- Private PEM of the symbolic key pair with seed `k`. -/
def privPem (k : String) : String := "priv:" ++ k

/-- Public PEM of the symbolic key pair with seed `k`. -/
def pubPem (k : String) : String := "pub:" ++ k

/-- Symbolic Ed25519 signature of `bytes` under a private key. -/
def ed25519Sign (privateKeyPem : String) (bytes : Bytes) : String :=
  "sig:" ++ privateKeyPem ++ ":" ++ sha256Hex bytes

/-- Symbolic Ed25519 verification: accept exactly the signature that the
private key paired with `publicKeyPem` produces on `bytes`. -/
def ed25519Verify (publicKeyPem : String) (bytes : Bytes) (sig : String) : Bool :=
  publicKeyPem.take 4 == "pub:" &&
    sig == ed25519Sign (privPem (publicKeyPem.drop 4)) bytes

/-- Signature envelope carried by events (`signatureSchema` in the
contracts package). -/
structure SignatureEnvelope where
  algorithm : String
  signature_b64 : String
  signed_bytes_hash : String
deriving DecidableEq, Inhabited

/-- Model of `signBytes` from the crypto package: sign the bytes, record
the algorithm and the digest of the signed bytes. -/
def signBytes (privateKeyPem : String) (bytes : Bytes) : SignatureEnvelope :=
  { algorithm := "ed25519"
    signature_b64 := ed25519Sign privateKeyPem bytes
    signed_bytes_hash := sha256Hex bytes }

/-- Model of `verifyBytes` from the crypto package: reject on algorithm
mismatch, reject when `signed_bytes_hash` does not match the digest of the
presented bytes, then verify the signature. -/
def verifyBytes (publicKeyPem : String) (bytes : Bytes) (env : SignatureEnvelope) : Bool :=
  env.algorithm == "ed25519" &&
    env.signed_bytes_hash == sha256Hex bytes &&
    ed25519Verify publicKeyPem bytes env.signature_b64

/-! ### Contracts (`packages/contracts`) -/

/-- Genesis value of `prev_event_hash`: 64 zero characters. -/
def genesisPrevHash : String := String.mk (List.replicate 64 '0')

/-- Event actor (`actorSchema`).  The role is kept as a raw string because
parsed events can carry arbitrary role values; validity is checked by the
schema predicate. -/
structure Actor where
  agent_id : String
  role : String
  key_id : String
deriving DecidableEq, Inhabited

/-- Artifact descriptor (`artifactDescriptorSchema`).  Byte sizes are
naturals; optional fields are `Option` and are absent from the JSON form
when `none`. -/
structure ArtifactDescriptor where
  artifact_hash : String
  hash_algorithm : String
  media_type : String
  encoding : String
  byte_size : Nat
  created_at : String
  producer_event_id : String
  storage_uri : String
  redaction_status : String
  trace_id : Option String
  integrity_verified_at : Option String
deriving DecidableEq, Inhabited

/-- Agent identity record from the key registry
(`agentIdentitySchema`). -/
structure AgentIdentity where
  agent_id : String
  display_name : String
  role_capabilities : List String
  key_id : String
  public_key : String
  key_algorithm : String
  status : String
  created_at : String
  updated_at : String
  revoked_at : Option String
  revoked_reason : Option String
deriving DecidableEq, Inhabited

/-- Protocol event (`protocolEventSchema`).  `signature` is an `Option`
because the verifier explicitly tests for its absence on parsed events;
`payload` is an arbitrary JSON tree.  Event type, role and status fields
are raw strings validated by the schema predicate, as in the source where
parsed JSON is cast unchecked. -/
structure ProtocolEvent where
  schema_version : String
  trace_id : String
  event_id : String
  event_type : String
  created_at : String
  actor : Actor
  payload_hash : String
  prev_event_hash : String
  event_hash : String
  signature : Option SignatureEnvelope
  payload_type : String
  payload : Json
  claims : List String
  artifacts : List ArtifactDescriptor
deriving Inhabited

/-- The closed set of event types (`eventTypeSchema`). -/
def eventTypes : List String :=
  ["session_initialized", "proposal_created", "proposal_reviewed",
   "tool_intent_signed", "tool_execution_started", "tool_execution_completed",
   "tool_execution_failed", "artifact_recorded", "claim_issued",
   "claim_challenged", "final_statement_signed", "verification_run_started",
   "verification_run_completed"]

/-- Event types whose signature is mandatory
(`requiredSignedEventTypes`). -/
def requiredSignedTypes : List String :=
  ["proposal_created", "tool_intent_signed", "claim_issued",
   "claim_challenged", "final_statement_signed", "verification_run_completed"]

/-- Role policy (`rolePolicy` in the contracts package): the event types
each role may emit; `none` for a string that is not a role, modelling the
`rolePolicy[role]?.has(...)` lookup on an unknown key. -/
def rolePolicy : String → Option (List String)
  | "planner" => some ["session_initialized", "proposal_created"]
  | "executor" => some
      ["tool_intent_signed", "tool_execution_started",
       "tool_execution_completed", "tool_execution_failed",
       "artifact_recorded", "claim_issued", "final_statement_signed"]
  | "critic" => some ["proposal_reviewed", "claim_challenged"]
  | "auditor" => some ["verification_run_started", "verification_run_completed"]
  | _ => none

/-- Crockford base32 alphabet of ULIDs (`ULID_REGEX`). -/
def isUlidChar (c : Char) : Bool :=
  (48 ≤ c.toNat && c.toNat ≤ 57) ||
    ((65 ≤ c.toNat && c.toNat ≤ 90) && c ≠ 'I' && c ≠ 'L' && c ≠ 'O' && c ≠ 'U')

/-- Model of `ULID_REGEX`: 26 Crockford base32 characters. -/
def isUlid (s : String) : Bool :=
  s.length == 26 && s.data.all isUlidChar

/-- Model of `HEX_64_REGEX`: 64 lowercase hexadecimal characters. -/
def isHex64 (s : String) : Bool :=
  s.length == 64 &&
    s.data.all (fun c =>
      (48 ≤ c.toNat && c.toNat ≤ 57) || (97 ≤ c.toNat && c.toNat ≤ 102))

/-- Identifier character class `[a-z0-9._-]` used for agent ids, key ids
and task ids. -/
def isIdentChar (c : Char) : Bool :=
  (97 ≤ c.toNat && c.toNat ≤ 122) || (48 ≤ c.toNat && c.toNat ≤ 57) ||
    c = '.' || c = '_' || c = '-'

/-- Nonempty string over the identifier character class. -/
def isIdent (s : String) : Bool :=
  s.length ≥ 1 && s.data.all isIdentChar

/-- Decimal digit test. -/
def isDigit (c : Char) : Bool := 48 ≤ c.toNat && c.toNat ≤ 57

/-- Model of `ISO_UTC_MS_REGEX`:
`dddd-dd-ddTdd:dd:dd.dddZ` with `d` a decimal digit. -/
def isIsoUtcMs (s : String) : Bool :=
  match s.data with
  | [a1, a2, a3, a4, d1, b1, b2, d2, c1, c2, t, e1, e2, f, g1, g2, h,
     i1, i2, p, m1, m2, m3, z] =>
    isDigit a1 && isDigit a2 && isDigit a3 && isDigit a4 && d1 = '-' &&
      isDigit b1 && isDigit b2 && d2 = '-' && isDigit c1 && isDigit c2 &&
      t = 'T' && isDigit e1 && isDigit e2 && f = ':' && isDigit g1 &&
      isDigit g2 && h = ':' && isDigit i1 && isDigit i2 && p = '.' &&
      isDigit m1 && isDigit m2 && isDigit m3 && z = 'Z'
  | _ => false

/-- Model of the claim-id pattern `^claim_[ULID]{26}$`. -/
def isClaimId (s : String) : Bool :=
  s.take 6 == "claim_" && isUlid (s.drop 6)

/-- Validity of an artifact descriptor under
`artifactDescriptorSchema`. -/
def descriptorValid (d : ArtifactDescriptor) : Bool :=
  isHex64 d.artifact_hash && d.hash_algorithm == "sha256" &&
    d.media_type.length ≥ 1 && d.encoding.length ≥ 1 &&
    isIsoUtcMs d.created_at && isUlid d.producer_event_id &&
    d.storage_uri.length ≥ 1 &&
    (d.redaction_status == "none" || d.redaction_status == "redacted" ||
      d.redaction_status == "redacted-with-pointer") &&
    (match d.trace_id with | none => true | some t => isUlid t) &&
    (match d.integrity_verified_at with | none => true | some t => isIsoUtcMs t)

/-- Validity of an actor under `actorSchema`. -/
def actorValid (a : Actor) : Bool :=
  isIdent a.agent_id && isIdent a.key_id &&
    (a.role == "planner" || a.role == "executor" || a.role == "critic" ||
      a.role == "auditor")

/-- Validity of a signature envelope under `signatureSchema`. -/
def signatureEnvelopeValid (s : SignatureEnvelope) : Bool :=
  s.algorithm == "ed25519" && s.signature_b64.length ≥ 1 &&
    isHex64 s.signed_bytes_hash

/-- Validity of a typed event under `protocolEventSchema` (the `safeParse`
performed by `CHK_SCHEMA_CONFORMANCE`).  The zod schema requires the
signature to be present. -/
def eventSchemaValid (e : ProtocolEvent) : Bool :=
  e.schema_version.length ≥ 1 && isUlid e.trace_id && isUlid e.event_id &&
    eventTypes.contains e.event_type && isIsoUtcMs e.created_at &&
    actorValid e.actor && isHex64 e.payload_hash &&
    isHex64 e.prev_event_hash && isHex64 e.event_hash &&
    (match e.signature with
     | none => false
     | some s => signatureEnvelopeValid s) &&
    e.payload_type.length ≥ 1 && e.claims.all isClaimId &&
    e.artifacts.all descriptorValid

/-! ### Event JSON forms and hashing (`packages/crypto`, event factory) -/

/-- JSON form of an actor. -/
def actorJson (a : Actor) : Json :=
  .obj [("agent_id", .str a.agent_id), ("role", .str a.role),
        ("key_id", .str a.key_id)]

/-- JSON form of a signature envelope. -/
def signatureJson (s : SignatureEnvelope) : Json :=
  .obj [("algorithm", .str s.algorithm),
        ("signature_b64", .str s.signature_b64),
        ("signed_bytes_hash", .str s.signed_bytes_hash)]

/-- JSON form of an artifact descriptor; optional fields are omitted when
absent, as in the serialized form. -/
def artifactJson (d : ArtifactDescriptor) : Json :=
  .obj ([("artifact_hash", .str d.artifact_hash),
         ("hash_algorithm", .str d.hash_algorithm),
         ("media_type", .str d.media_type),
         ("encoding", .str d.encoding),
         ("byte_size", .num d.byte_size),
         ("created_at", .str d.created_at),
         ("producer_event_id", .str d.producer_event_id),
         ("storage_uri", .str d.storage_uri),
         ("redaction_status", .str d.redaction_status)] ++
        (match d.trace_id with
         | none => [] | some t => [("trace_id", Json.str t)]) ++
        (match d.integrity_verified_at with
         | none => [] | some t => [("integrity_verified_at", Json.str t)]))

/-- Model of `extractSignedPayload` from the crypto package: the object
holding exactly the eleven signed fields, in the order of the
`signedFields` list.  `payload`, `event_hash` and `signature` are not
among them. -/
def signedPayloadJson (e : ProtocolEvent) : Json :=
  .obj [("schema_version", .str e.schema_version),
        ("trace_id", .str e.trace_id),
        ("event_id", .str e.event_id),
        ("event_type", .str e.event_type),
        ("created_at", .str e.created_at),
        ("actor", actorJson e.actor),
        ("payload_hash", .str e.payload_hash),
        ("payload_type", .str e.payload_type),
        ("claims", .arr (e.claims.map Json.str)),
        ("artifacts", .arr (e.artifacts.map artifactJson)),
        ("prev_event_hash", .str e.prev_event_hash)]

/-- JSON form of an event with the `event_hash` field removed, as
destructured by `computeEventHash` and by `CHK_EVENT_HASH_INTEGRITY`.
The signature is included when present and the key is absent when the
event carries none. -/
def eventJsonNoHash (e : ProtocolEvent) : Json :=
  .obj ([("schema_version", .str e.schema_version),
         ("trace_id", .str e.trace_id),
         ("event_id", .str e.event_id),
         ("event_type", .str e.event_type),
         ("created_at", .str e.created_at),
         ("actor", actorJson e.actor),
         ("payload_hash", .str e.payload_hash),
         ("prev_event_hash", .str e.prev_event_hash),
         ("payload_type", .str e.payload_type),
         ("payload", e.payload),
         ("claims", .arr (e.claims.map Json.str)),
         ("artifacts", .arr (e.artifacts.map artifactJson))] ++
        (match e.signature with
         | none => [] | some s => [("signature", signatureJson s)]))

/-- Model of `canonicalSignedBytes`: canonical bytes of the signed-field
subset. -/
def canonicalSignedBytes (e : ProtocolEvent) : Bytes :=
  canonBytes (signedPayloadJson e)

/-- Model of `computeEventHash`: digest of the canonical bytes of the
event without its `event_hash` field (the signature, when present, is
hashed). -/
def computeEventHash (e : ProtocolEvent) : String :=
  sha256Hex (canonBytes (eventJsonNoHash e))

/-- Model of `hashCanonical` from the crypto package. -/
def hashCanonical (j : Json) : String := sha256Hex (canonBytes j)

/-- Input of the event factory (`BuildEventInput`).  `created_at` and
`event_id` are explicit: the source defaults them to `nowIso()` and a
fresh ULID, which the model threads as arguments. -/
structure BuildEventInput where
  trace_id : String
  event_type : String
  actor : Actor
  payload_type : String
  payload : Json
  claims : List String
  artifacts : List ArtifactDescriptor
  prev_event_hash : String
  private_key_pem : String
  created_at : String
  event_id : String

/-- Model of `buildSignedEvent` from
`packages/protocol/src/event-factory.ts`: hash the payload, sign the
canonical signed subset, then hash the event including the signature. -/
def buildSignedEvent (inp : BuildEventInput) : ProtocolEvent :=
  let e0 : ProtocolEvent :=
    { schema_version := "1.0.0"
      trace_id := inp.trace_id
      event_id := inp.event_id
      event_type := inp.event_type
      created_at := inp.created_at
      actor := inp.actor
      payload_hash := hashCanonical inp.payload
      prev_event_hash := inp.prev_event_hash
      event_hash := ""
      signature := none
      payload_type := inp.payload_type
      payload := inp.payload
      claims := inp.claims
      artifacts := inp.artifacts }
  let sigEnv := signBytes inp.private_key_pem (canonicalSignedBytes e0)
  let e1 := { e0 with signature := some sigEnv }
  { e1 with event_hash := computeEventHash e1 }

/-! ### Key registry (`packages/crypto`, key registry file) -/

/-- Model of `resolveIdentityByKeyId`: first identity in the registry with
the given key id. -/
def resolveIdentityByKeyId (registry : List AgentIdentity) (keyId : String) :
    Option AgentIdentity :=
  registry.find? (fun i => i.key_id == keyId)

/-- Model of `resolvePublicKeyByKeyId`. -/
def resolvePublicKeyByKeyId (registry : List AgentIdentity) (keyId : String) :
    Option String :=
  (resolveIdentityByKeyId registry keyId).map (fun i => i.public_key)

/-! ### Verifier pipeline (`packages/verifier/src/verifier.ts`)

Failures are modelled with their distinguishing fields.  The source also
copies `message` into `description`, `suggested_action` into
`recommended_remediation`, and stamps `detected_at := nowIso()`; those
duplicated and wall-clock fields are omitted from the model. -/

/-- Verification failure entry (`verificationFailureSchema`). -/
structure VerificationFailure where
  failure_code : String
  severity : String
  event_id : Option String
  artifact_hash : Option String
  message : String
  suggested_action : String
  verification_step : String
deriving DecidableEq, Inhabited

/-- Verification warning entry (`verificationWarningSchema`). -/
structure VerificationWarning where
  warning_code : String
  severity : String
  event_id : Option String
  message : String
deriving DecidableEq, Inhabited

/-- Environment a verification run reads: the key registry and the
content-addressed blob store (hash, bytes). -/
structure VerifierEnv where
  registry : List AgentIdentity
  blobs : List (String × String)

/-- First-match association lookup, modelling a keyed file lookup. -/
def alookup (k : String) : List (String × α) → Option α
  | [] => none
  | (k', v) :: rest => if k' == k then some v else alookup k rest

/-- Check status from a failure list, modelling
`failures.some(step = id) ? "fail" : "pass"`. -/
def plainStatus (fs : List VerificationFailure) : String :=
  if fs.isEmpty then "pass" else "fail"

/-- CHK_SCHEMA_CONFORMANCE failure for an event rejected by
`protocolEventSchema.safeParse`. -/
def schemaParseFailure (e : ProtocolEvent) : VerificationFailure :=
  { failure_code := "SCHEMA_INVALID", severity := "medium"
    event_id := some e.event_id, artifact_hash := none
    message := "Event failed schema validation."
    suggested_action := "Inspect event payload and regenerate trace."
    verification_step := "CHK_SCHEMA_CONFORMANCE" }

/-- CHK_SCHEMA_CONFORMANCE failure for a duplicate `event_id`. -/
def duplicateIdFailure (e : ProtocolEvent) : VerificationFailure :=
  { failure_code := "SCHEMA_INVALID", severity := "medium"
    event_id := some e.event_id, artifact_hash := none
    message := "Duplicate event_id detected (anti-replay guard)."
    suggested_action := "Remove replayed event and rerun protocol."
    verification_step := "CHK_SCHEMA_CONFORMANCE" }

/-- CHK_SCHEMA_CONFORMANCE failure for a `trace_id` mismatch. -/
def traceMismatchFailure (traceId : String) (e : ProtocolEvent) : VerificationFailure :=
  { failure_code := "SCHEMA_INVALID", severity := "medium"
    event_id := some e.event_id, artifact_hash := none
    message := "Event trace_id mismatch. expected=" ++ traceId ++
      " actual=" ++ e.trace_id
    suggested_action := "Remove replayed event from other traces."
    verification_step := "CHK_SCHEMA_CONFORMANCE" }

/-- CHK_SCHEMA_CONFORMANCE failure for an unknown event type. -/
def unknownTypeFailure (e : ProtocolEvent) : VerificationFailure :=
  { failure_code := "SCHEMA_INVALID", severity := "medium"
    event_id := some e.event_id, artifact_hash := none
    message := "Unknown event type: " ++ e.event_type
    suggested_action := "Upgrade reader or reject unsupported event schema."
    verification_step := "CHK_SCHEMA_CONFORMANCE" }

/-- Model of CHK_SCHEMA_CONFORMANCE: schema validation, duplicate-id
guard (among schema-valid events), trace-id match and event-type check,
in the source's order with its `continue` structure. -/
def chkSchemaConformance (traceId : String) (events : List ProtocolEvent) :
    List VerificationFailure :=
  (events.foldl
    (fun (st : List String × List VerificationFailure) e =>
      let (seen, fs) := st
      if ¬ eventSchemaValid e then (seen, fs ++ [schemaParseFailure e])
      else if seen.contains e.event_id then (seen, fs ++ [duplicateIdFailure e])
      else
        let fs1 := if e.trace_id ≠ traceId then fs ++ [traceMismatchFailure traceId e] else fs
        let fs2 := if ¬ eventTypes.contains e.event_type then fs1 ++ [unknownTypeFailure e] else fs1
        (seen ++ [e.event_id], fs2))
    ([], [])).2

/-- CHK_EVENT_HASH_INTEGRITY failure. -/
def hashMismatchFailure (e : ProtocolEvent) : VerificationFailure :=
  { failure_code := "HASH_MISMATCH", severity := "critical"
    event_id := some e.event_id, artifact_hash := none
    message := "Event hash mismatch. expected=" ++ e.event_hash ++
      " actual=" ++ computeEventHash e
    suggested_action := "Restore immutable ledger from trusted backup."
    verification_step := "CHK_EVENT_HASH_INTEGRITY" }

/-- Model of CHK_EVENT_HASH_INTEGRITY: recompute the digest of each event
without its `event_hash` field (signature included) and compare. -/
def chkEventHashIntegrity (events : List ProtocolEvent) : List VerificationFailure :=
  events.foldl
    (fun fs e =>
      if computeEventHash e ≠ e.event_hash then fs ++ [hashMismatchFailure e] else fs)
    []

/-- CHK_CHAIN_CONTINUITY failure at a given index. -/
def chainBreakFailure (idx : Nat) (expected : String) (e : ProtocolEvent) :
    VerificationFailure :=
  { failure_code := "CHAIN_BREAK", severity := "critical"
    event_id := some e.event_id, artifact_hash := none
    message := "prev_event_hash mismatch at index " ++ toString idx ++
      ". expected=" ++ expected ++ " actual=" ++ e.prev_event_hash
    suggested_action := "Identify first broken line and restore from last trusted checkpoint."
    verification_step := "CHK_CHAIN_CONTINUITY" }

/-- Scan of CHK_CHAIN_CONTINUITY, stopping at the first break as the
source's `break` does. -/
def chainScan (idx : Nat) (expected : String) : List ProtocolEvent → List VerificationFailure
  | [] => []
  | e :: rest =>
    if e.prev_event_hash ≠ expected then [chainBreakFailure idx expected e]
    else chainScan (idx + 1) e.event_hash rest

/-- Model of CHK_CHAIN_CONTINUITY: index 0 must point at the genesis hash,
every later event at its predecessor's `event_hash`. -/
def chkChainContinuity (events : List ProtocolEvent) : List VerificationFailure :=
  chainScan 0 genesisPrevHash events

/-- CHK_SIGNATURE_VALIDITY failure for a missing required signature. -/
def sigMissingFailure (e : ProtocolEvent) : VerificationFailure :=
  { failure_code := "SIG_MISSING", severity := "critical"
    event_id := some e.event_id, artifact_hash := none
    message := "Required signature is missing."
    suggested_action := "Reject event and rerun protocol step with signing enabled."
    verification_step := "CHK_SIGNATURE_VALIDITY" }

/-- CHK_SIGNATURE_VALIDITY failure for an unresolved public key. -/
def sigNoKeyFailure (e : ProtocolEvent) : VerificationFailure :=
  { failure_code := "SIG_INVALID", severity := "critical"
    event_id := some e.event_id, artifact_hash := none
    message := "Public key not found for key_id=" ++ e.actor.key_id ++ "."
    suggested_action := "Restore key registry and rerun verification."
    verification_step := "CHK_SIGNATURE_VALIDITY" }

/-- CHK_SIGNATURE_VALIDITY failure for a signature that does not verify. -/
def sigInvalidFailure (e : ProtocolEvent) : VerificationFailure :=
  { failure_code := "SIG_INVALID", severity := "critical"
    event_id := some e.event_id, artifact_hash := none
    message := "Signature validation failed for signed event."
    suggested_action := "Treat trace as tampered and rotate impacted keys."
    verification_step := "CHK_SIGNATURE_VALIDITY" }

/-- Model of CHK_SIGNATURE_VALIDITY.  Only events of the required-signed
types are examined; events that pass are collected (the
`signatureValidEvents` set) for the claim-evidence check. -/
def chkSignatureValidity (registry : List AgentIdentity) (events : List ProtocolEvent) :
    List VerificationFailure × List String :=
  events.foldl
    (fun (st : List VerificationFailure × List String) e =>
      let (fs, ok) := st
      if ¬ requiredSignedTypes.contains e.event_type then (fs, ok)
      else
        match e.signature with
        | none => (fs ++ [sigMissingFailure e], ok)
        | some env =>
          match resolvePublicKeyByKeyId registry e.actor.key_id with
          | none => (fs ++ [sigNoKeyFailure e], ok)
          | some publicKey =>
            if verifyBytes publicKey (canonicalSignedBytes e) env then
              (fs, ok ++ [e.event_id])
            else (fs ++ [sigInvalidFailure e], ok))
    ([], [])

/-- CHK_KEY_STATUS failure for an unregistered key id. -/
def keyNotFoundFailure (e : ProtocolEvent) : VerificationFailure :=
  { failure_code := "SCHEMA_INVALID", severity := "medium"
    event_id := some e.event_id, artifact_hash := none
    message := "Actor key_id not found in registry: " ++ e.actor.key_id
    suggested_action := "Reconcile key registry with trace participants."
    verification_step := "CHK_KEY_STATUS" }

/-- CHK_KEY_STATUS failure for an actor/registry agent mismatch. -/
def agentMismatchFailure (e : ProtocolEvent) : VerificationFailure :=
  { failure_code := "SCHEMA_INVALID", severity := "medium"
    event_id := some e.event_id, artifact_hash := none
    message := "Actor agent_id does not match key registry identity."
    suggested_action := "Reject mismatched event and reissue with correct key."
    verification_step := "CHK_KEY_STATUS" }

/-- CHK_KEY_STATUS failure for use of a revoked key at or after its
revocation timestamp. -/
def revokedKeyFailure (e : ProtocolEvent) : VerificationFailure :=
  { failure_code := "SCHEMA_INVALID", severity := "medium"
    event_id := some e.event_id, artifact_hash := none
    message := "Event signed with revoked key after revocation timestamp."
    suggested_action := "Invalidate event and rotate key material."
    verification_step := "CHK_KEY_STATUS" }

/-- Model of CHK_KEY_STATUS.  The `created_at >= revoked_at` comparison is
the JavaScript string comparison, i.e. lexicographic order on the
fixed-width ISO strings. -/
def chkKeyStatus (registry : List AgentIdentity) (events : List ProtocolEvent) :
    List VerificationFailure :=
  events.foldl
    (fun fs e =>
      match resolveIdentityByKeyId registry e.actor.key_id with
      | none => fs ++ [keyNotFoundFailure e]
      | some identity =>
        if identity.agent_id ≠ e.actor.agent_id then fs ++ [agentMismatchFailure e]
        else
          match identity.revoked_at with
          | some revokedAt =>
            if identity.status == "revoked" ∧ ¬ (e.created_at < revokedAt) then
              fs ++ [revokedKeyFailure e]
            else fs
          | none => fs)
    []

/-- CHK_ARTIFACT_EXISTENCE failure. -/
def artifactMissingFailure (e : ProtocolEvent) (d : ArtifactDescriptor) :
    VerificationFailure :=
  { failure_code := "ARTIFACT_MISSING", severity := "high"
    event_id := some e.event_id, artifact_hash := some d.artifact_hash
    message := "Referenced artifact blob missing from content-addressed store."
    suggested_action := "Restore artifact blob from backup or regenerate trace."
    verification_step := "CHK_ARTIFACT_EXISTENCE" }

/-- Model of CHK_ARTIFACT_EXISTENCE.  Present hashes are collected in
first-insertion order (the `existingArtifacts` set). -/
def chkArtifactExistence (blobs : List (String × String)) (events : List ProtocolEvent) :
    List VerificationFailure × List String :=
  events.foldl
    (fun st e =>
      e.artifacts.foldl
        (fun (st : List VerificationFailure × List String) d =>
          let (fs, ex) := st
          match alookup d.artifact_hash blobs with
          | none => (fs ++ [artifactMissingFailure e d], ex)
          | some _ =>
            if ex.contains d.artifact_hash then (fs, ex)
            else (fs, ex ++ [d.artifact_hash]))
        st)
    ([], [])

/-- CHK_ARTIFACT_HASH_MATCH failure. -/
def artifactHashFailure (h recomputed : String) : VerificationFailure :=
  { failure_code := "ARTIFACT_HASH_MISMATCH", severity := "high"
    event_id := none, artifact_hash := some h
    message := "Artifact bytes do not match descriptor hash. expected=" ++ h ++
      " actual=" ++ recomputed
    suggested_action := "Replace corrupted blob with immutable source copy."
    verification_step := "CHK_ARTIFACT_HASH_MATCH" }

/-- Model of CHK_ARTIFACT_HASH_MATCH over the hashes collected by the
existence check; hashes whose blob bytes re-digest correctly are collected
(the `artifactHashValid` set). -/
def chkArtifactHashMatch (blobs : List (String × String)) (existing : List String) :
    List VerificationFailure × List String :=
  existing.foldl
    (fun (st : List VerificationFailure × List String) h =>
      let (fs, ok) := st
      match alookup h blobs with
      | none => (fs, ok)
      | some bytes =>
        if sha256Hex (bstr bytes) ≠ h then
          (fs ++ [artifactHashFailure h (sha256Hex (bstr bytes))], ok)
        else (fs, ok ++ [h]))
    ([], [])

/-- Property read on a JSON value, modelling JavaScript member access on a
parsed (non-null) value: objects yield the entry when present, anything
else yields `undefined` (`none`).  Duplicate keys do not occur in parsed
objects. -/
def jsGet : Json → String → Option Json
  | .obj kvs, k => (kvs.find? (fun kv => kv.1 == k)).map (fun kv => kv.2)
  | _, _ => none

/-- JavaScript truthiness of a JSON value. -/
def jsTruthy : Json → Bool
  | .undef => false
  | .null => false
  | .bool b => b
  | .num n => n ≠ 0
  | .str s => s ≠ ""
  | .arr _ => true
  | .obj _ => true

/-- String interpolation of a JSON value inside a template literal, for
the values (strings) the repository interpolates into messages. -/
def msgOfJson : Json → String
  | .str s => s
  | .num n => toString n
  | .bool b => if b then "true" else "false"
  | .null => "null"
  | _ => ""

/-- Insert into the insertion-ordered map (JavaScript `Map.set`):
overwrite an existing key, else append. -/
def mapSet (m : List (Json × ProtocolEvent)) (k : Json) (v : ProtocolEvent) :
    List (Json × ProtocolEvent) :=
  if m.any (fun kv => kv.1 == k) then
    m.map (fun kv => if kv.1 == k then (kv.1, v) else kv)
  else m ++ [(k, v)]

/-- Lookup in the insertion-ordered map (JavaScript `Map.get`). -/
def mapGet (m : List (Json × ProtocolEvent)) (k : Json) : Option ProtocolEvent :=
  (m.find? (fun kv => kv.1 == k)).map (fun kv => kv.2)

/-- First pass of CHK_CLAIM_EVIDENCE_SUFFICIENCY: collect
`challenged_claim_id` values of `claim_challenged` events (truthy values
only, later entries overwriting earlier ones). -/
def challengedMapOf (events : List ProtocolEvent) : List (Json × ProtocolEvent) :=
  events.foldl
    (fun m e =>
      if e.event_type == "claim_challenged" then
        match jsGet e.payload "challenged_claim_id" with
        | some v => if jsTruthy v then mapSet m v e else m
        | none => m
      else m)
    []

/-- Claim identifier of a `claim_issued` event:
`payload.claim_id ?? event.claims[0]` with JavaScript nullish
coalescing. -/
def claimIdOf (e : ProtocolEvent) : Option Json :=
  match jsGet e.payload "claim_id" with
  | some v => if v == Json.null then e.claims.head?.map Json.str else some v
  | none => e.claims.head?.map Json.str

/-- Evidence hash list of a `claim_issued` event:
`payload.evidence_artifacts ?? artifacts.map(artifact_hash)`.  A present
non-null non-array value is outside the model (the source would fail on
it); no theorem exercises that case. -/
def evidenceOf (e : ProtocolEvent) : List Json :=
  match jsGet e.payload "evidence_artifacts" with
  | some (Json.arr xs) => xs
  | some Json.null => e.artifacts.map (fun a => Json.str a.artifact_hash)
  | none => e.artifacts.map (fun a => Json.str a.artifact_hash)
  | some _ => []

/-- Whether `payload.resolved === true`. -/
def resolvedTrue (payload : Json) : Bool :=
  match jsGet payload "resolved" with
  | some (Json.bool true) => true
  | _ => false

/-- CHK_CLAIM_EVIDENCE_SUFFICIENCY failure for a claim without evidence
references. -/
def claimNoEvidenceFailure (e : ProtocolEvent) : VerificationFailure :=
  { failure_code := "CLAIM_UNPROVEN", severity := "high"
    event_id := some e.event_id, artifact_hash := none
    message := "Claim has no evidence artifact references."
    suggested_action := "Attach artifact evidence before issuing claim."
    verification_step := "CHK_CLAIM_EVIDENCE_SUFFICIENCY" }

/-- CHK_CLAIM_EVIDENCE_SUFFICIENCY failure for incomplete or invalid
evidence. -/
def claimBadEvidenceFailure (e : ProtocolEvent) : VerificationFailure :=
  { failure_code := "CLAIM_UNPROVEN", severity := "high"
    event_id := some e.event_id, artifact_hash := none
    message := "Claim evidence set is incomplete or invalid."
    suggested_action := "Reissue claim after restoring artifact and signature integrity."
    verification_step := "CHK_CLAIM_EVIDENCE_SUFFICIENCY" }

/-- CHK_CLAIM_EVIDENCE_SUFFICIENCY failure for an unresolved disputed
claim under the strict profile. -/
def claimDisputedFailure (cid : Json) (challenge : ProtocolEvent) : VerificationFailure :=
  { failure_code := "CLAIM_UNPROVEN", severity := "high"
    event_id := some challenge.event_id, artifact_hash := none
    message := "Claim " ++ msgOfJson cid ++
      " is disputed and unresolved under strict policy."
    suggested_action := "Resolve or retract disputed claim."
    verification_step := "CHK_CLAIM_EVIDENCE_SUFFICIENCY" }

/-- Warning for an unresolved disputed claim under a non-strict profile. -/
def claimDisputedWarning (cid : Json) (challenge : ProtocolEvent) : VerificationWarning :=
  { warning_code := "CLAIM_DISPUTED", severity := "medium"
    event_id := some challenge.event_id
    message := "Claim " ++ msgOfJson cid ++ " remains disputed." }

/-- One iteration of the CHK_CLAIM_EVIDENCE_SUFFICIENCY loop over a
`claim_issued` candidate.  `sigValid` and `hashValid` are the sets
collected by the signature and artifact-hash checks, `challenged` the
map built in the check's first pass. -/
def claimStep (policyProfile : String) (sigValid hashValid : List String)
    (challenged : List (Json × ProtocolEvent))
    (st : List VerificationFailure × List VerificationWarning)
    (e : ProtocolEvent) :
    List VerificationFailure × List VerificationWarning :=
  let (fs, ws) := st
  if e.event_type ≠ "claim_issued" then (fs, ws)
  else
    match claimIdOf e with
    | none => (fs ++ [claimNoEvidenceFailure e], ws)
    | some cid =>
      if ¬ jsTruthy cid ∨ (evidenceOf e).isEmpty then
        (fs ++ [claimNoEvidenceFailure e], ws)
      else
        let evidenceOk := (evidenceOf e).all
          (fun x => match x with
           | Json.str s => hashValid.contains s
           | _ => false)
        let fs1 :=
          if ¬ evidenceOk ∨ ¬ sigValid.contains e.event_id then
            fs ++ [claimBadEvidenceFailure e]
          else fs
        match mapGet challenged cid with
        | some challenge =>
          if resolvedTrue e.payload then (fs1, ws)
          else if policyProfile == "strict" then
            (fs1 ++ [claimDisputedFailure cid challenge], ws)
          else (fs1, ws ++ [claimDisputedWarning cid challenge])
        | none => (fs1, ws)

/-- Model of CHK_CLAIM_EVIDENCE_SUFFICIENCY. -/
def chkClaimEvidence (policyProfile : String) (sigValid hashValid : List String)
    (events : List ProtocolEvent) :
    List VerificationFailure × List VerificationWarning :=
  events.foldl
    (claimStep policyProfile sigValid hashValid (challengedMapOf events)) ([], [])

/-- CHK_ROLE_POLICY_CONFORMANCE failure. -/
def rolePolicyFailure (e : ProtocolEvent) : VerificationFailure :=
  { failure_code := "ROLE_POLICY_VIOLATION", severity := "medium"
    event_id := some e.event_id, artifact_hash := none
    message := "Role " ++ e.actor.role ++ " emitted disallowed event " ++
      e.event_type ++ "."
    suggested_action := "Correct role assignment and rerun workflow."
    verification_step := "CHK_ROLE_POLICY_CONFORMANCE" }

/-- Model of CHK_ROLE_POLICY_CONFORMANCE. -/
def chkRolePolicy (events : List ProtocolEvent) : List VerificationFailure :=
  events.foldl
    (fun fs e =>
      match rolePolicy e.actor.role with
      | some allowed => if allowed.contains e.event_type then fs else fs ++ [rolePolicyFailure e]
      | none => fs ++ [rolePolicyFailure e])
    []

/-- CHK_FINALIZATION_INTEGRITY failure for a missing
`final_statement_signed` event. -/
def missingFinalFailure : VerificationFailure :=
  { failure_code := "SCHEMA_INVALID", severity := "medium"
    event_id := none, artifact_hash := none
    message := "Missing final_statement_signed event."
    suggested_action := "Emit final statement before verification."
    verification_step := "CHK_FINALIZATION_INTEGRITY" }

/-- CHK_FINALIZATION_INTEGRITY failure for a missing
`verification_run_started` event. -/
def missingStartedFailure : VerificationFailure :=
  { failure_code := "SCHEMA_INVALID", severity := "medium"
    event_id := none, artifact_hash := none
    message := "Missing verification_run_started event."
    suggested_action := "Record verification run start event."
    verification_step := "CHK_FINALIZATION_INTEGRITY" }

/-- CHK_FINALIZATION_INTEGRITY failure for a missing
`verification_run_completed` event. -/
def missingCompletedFailure : VerificationFailure :=
  { failure_code := "SCHEMA_INVALID", severity := "medium"
    event_id := none, artifact_hash := none
    message := "Missing verification_run_completed event."
    suggested_action := "Record verification completion event."
    verification_step := "CHK_FINALIZATION_INTEGRITY" }

/-- CHK_FINALIZATION_INTEGRITY failure for a final statement recorded
after verification completion. -/
def finalAfterCompletedFailure (eid : Option String) : VerificationFailure :=
  { failure_code := "ROLE_POLICY_VIOLATION", severity := "medium"
    event_id := eid, artifact_hash := none
    message := "final_statement_signed occurs after verification completion."
    suggested_action := "Move final statement before verification completion."
    verification_step := "CHK_FINALIZATION_INTEGRITY" }

/-- Warning emitted instead of the missing-completion failure when
`allow_incomplete_finalization` is set. -/
def finalizationIncompleteWarning : VerificationWarning :=
  { warning_code := "FINALIZATION_INCOMPLETE", severity := "low"
    event_id := none
    message := "verification_run_completed not present in current snapshot." }

/-- Model of CHK_FINALIZATION_INTEGRITY, with the source's `findIndex`
calls as `findIdx?`. -/
def chkFinalizationIntegrity (allowIncomplete : Bool) (events : List ProtocolEvent) :
    List VerificationFailure × List VerificationWarning :=
  let finalIdx := events.findIdx? (fun e => e.event_type == "final_statement_signed")
  let startedIdx := events.findIdx? (fun e => e.event_type == "verification_run_started")
  let completedIdx := events.findIdx? (fun e => e.event_type == "verification_run_completed")
  let fs1 := if finalIdx = none then [missingFinalFailure] else []
  let fs2 := if startedIdx = none then [missingStartedFailure] else []
  let fs3 :=
    if completedIdx = none ∧ ¬ allowIncomplete then [missingCompletedFailure] else []
  let fs4 :=
    match finalIdx, completedIdx with
    | some i, some j =>
      if i > j then
        [finalAfterCompletedFailure ((events.get? i).map (fun e => e.event_id))]
      else []
    | _, _ => []
  let ws := if completedIdx = none ∧ allowIncomplete then [finalizationIncompleteWarning] else []
  (fs1 ++ fs2 ++ fs3 ++ fs4, ws)

/-- Status of CHK_FINALIZATION_INTEGRITY, from its failures and the
FINALIZATION_INCOMPLETE warning. -/
def finalizationStatus (allowIncomplete : Bool) (events : List ProtocolEvent) : String :=
  let (fs, ws) := chkFinalizationIntegrity allowIncomplete events
  if ¬ fs.isEmpty then "fail"
  else if ws.any (fun w => w.warning_code == "FINALIZATION_INCOMPLETE") then "warning"
  else "pass"

/-- Status of CHK_CLAIM_EVIDENCE_SUFFICIENCY. -/
def claimCheckStatus (fs : List VerificationFailure) (ws : List VerificationWarning) : String :=
  if ¬ fs.isEmpty then "fail"
  else if ws.any (fun w => w.warning_code == "CLAIM_DISPUTED") then "warning"
  else "pass"

/-- Structured verification report (the fields of
`verificationReportSchema` the model tracks; report ids, timestamps and
timing metrics are wall-clock values outside the model). -/
structure VerificationReportModel where
  verification_status : String
  checks : List (String × String)
  failures : List VerificationFailure
  warnings : List VerificationWarning
deriving DecidableEq, Inhabited

/-- Model of `verifyTrace`: run the ten checks in their mandatory order
over a snapshot of the events, then compute the verdict: `fail` on any
failure, else `pass-with-warnings` on any warning, else `pass`.
`policyProfile` is the resolved profile (the input override if given, else
the session's). -/
def verifyTraceModel (traceId policyProfile : String) (allowIncomplete : Bool)
    (env : VerifierEnv) (events : List ProtocolEvent) : VerificationReportModel :=
  let f1 := chkSchemaConformance traceId events
  let f2 := chkEventHashIntegrity events
  let f3 := chkChainContinuity events
  let (f4, sigValid) := chkSignatureValidity env.registry events
  let f5 := chkKeyStatus env.registry events
  let (f6, existing) := chkArtifactExistence env.blobs events
  let (f7, hashValid) := chkArtifactHashMatch env.blobs existing
  let (f8, w8) := chkClaimEvidence policyProfile sigValid hashValid events
  let f9 := chkRolePolicy events
  let (f10, w10) := chkFinalizationIntegrity allowIncomplete events
  let failures := f1 ++ f2 ++ f3 ++ f4 ++ f5 ++ f6 ++ f7 ++ f8 ++ f9 ++ f10
  let warnings := w8 ++ w10
  { verification_status :=
      if ¬ failures.isEmpty then "fail"
      else if ¬ warnings.isEmpty then "pass-with-warnings"
      else "pass"
    checks :=
      [("CHK_SCHEMA_CONFORMANCE", plainStatus f1),
       ("CHK_EVENT_HASH_INTEGRITY", plainStatus f2),
       ("CHK_CHAIN_CONTINUITY", plainStatus f3),
       ("CHK_SIGNATURE_VALIDITY", plainStatus f4),
       ("CHK_KEY_STATUS", plainStatus f5),
       ("CHK_ARTIFACT_EXISTENCE", plainStatus f6),
       ("CHK_ARTIFACT_HASH_MATCH", plainStatus f7),
       ("CHK_CLAIM_EVIDENCE_SUFFICIENCY", claimCheckStatus f8 w8),
       ("CHK_ROLE_POLICY_CONFORMANCE", plainStatus f9),
       ("CHK_FINALIZATION_INTEGRITY", finalizationStatus allowIncomplete events)]
    failures := failures
    warnings := warnings }

/-! ### Raw event access (JavaScript dynamic semantics)

`TraceLedger.readEvents` casts each `JSON.parse` result to
`ProtocolEvent` without validation, so the verifier's loops run over
arbitrary parsed JSON values.  This layer models member access on such
values: reading a property of `null` (or `undefined`) throws a
`TypeError`; reading a missing property of any other value yields
`undefined`. -/

/-- JavaScript runtime error raised by member access on `null` or
`undefined`. -/
inductive JsError where
  | typeError : JsError
deriving DecidableEq

/-- Member access with JavaScript semantics: throws on `null`/`undefined`
base values, yields `undefined` (`none`) for missing properties. -/
def jsGetThrow : Json → String → Except JsError (Option Json)
  | .null, _ => .error .typeError
  | .undef, _ => .error .typeError
  | .obj kvs, k => .ok ((kvs.find? (fun kv => kv.1 == k)).map (fun kv => kv.2))
  | _, _ => .ok none

/-- String payload of a JSON value, if it is a string. -/
def jstr : Json → Option String
  | .str s => some s
  | _ => none

/-- Raw-JSON validity of an artifact descriptor under
`artifactDescriptorSchema`. -/
def rawDescriptorValid (j : Json) : Bool :=
  match j with
  | .obj _ =>
    (match jsGet j "artifact_hash" with | some (.str s) => isHex64 s | _ => false) &&
    (jsGet j "hash_algorithm" == some (Json.str "sha256")) &&
    (match jsGet j "media_type" with | some (.str s) => s.length ≥ 1 | _ => false) &&
    (match jsGet j "encoding" with | some (.str s) => s.length ≥ 1 | _ => false) &&
    (match jsGet j "byte_size" with | some (.num n) => n ≥ 0 | _ => false) &&
    (match jsGet j "created_at" with | some (.str s) => isIsoUtcMs s | _ => false) &&
    (match jsGet j "producer_event_id" with | some (.str s) => isUlid s | _ => false) &&
    (match jsGet j "storage_uri" with | some (.str s) => s.length ≥ 1 | _ => false) &&
    (match jsGet j "redaction_status" with
     | some (.str s) => s == "none" || s == "redacted" || s == "redacted-with-pointer"
     | _ => false) &&
    (match jsGet j "trace_id" with
     | none => true | some (.str s) => isUlid s | some _ => false) &&
    (match jsGet j "integrity_verified_at" with
     | none => true | some (.str s) => isIsoUtcMs s | some _ => false)
  | _ => false

/-- Raw-JSON validity of an actor under `actorSchema`. -/
def rawActorValid (j : Json) : Bool :=
  match j with
  | .obj _ =>
    (match jsGet j "agent_id" with | some (.str s) => isIdent s | _ => false) &&
    (match jsGet j "role" with
     | some (.str s) => s == "planner" || s == "executor" || s == "critic" || s == "auditor"
     | _ => false) &&
    (match jsGet j "key_id" with | some (.str s) => isIdent s | _ => false)
  | _ => false

/-- Raw-JSON validity of a signature envelope under `signatureSchema`. -/
def rawSignatureValid (j : Json) : Bool :=
  match j with
  | .obj _ =>
    (jsGet j "algorithm" == some (Json.str "ed25519")) &&
    (match jsGet j "signature_b64" with | some (.str s) => s.length ≥ 1 | _ => false) &&
    (match jsGet j "signed_bytes_hash" with | some (.str s) => isHex64 s | _ => false)
  | _ => false

/-- Raw-JSON validity of an event under `protocolEventSchema`
(the `safeParse` of CHK_SCHEMA_CONFORMANCE on an unvalidated parsed
line).  `payload` is `z.unknown()` and unconstrained. -/
def rawEventValid (j : Json) : Bool :=
  match j with
  | .obj _ =>
    (match jsGet j "schema_version" with | some (.str s) => s.length ≥ 1 | _ => false) &&
    (match jsGet j "trace_id" with | some (.str s) => isUlid s | _ => false) &&
    (match jsGet j "event_id" with | some (.str s) => isUlid s | _ => false) &&
    (match jsGet j "event_type" with
     | some (.str s) => eventTypes.contains s | _ => false) &&
    (match jsGet j "created_at" with | some (.str s) => isIsoUtcMs s | _ => false) &&
    (match jsGet j "actor" with | some a => rawActorValid a | none => false) &&
    (match jsGet j "payload_hash" with | some (.str s) => isHex64 s | _ => false) &&
    (match jsGet j "prev_event_hash" with | some (.str s) => isHex64 s | _ => false) &&
    (match jsGet j "event_hash" with | some (.str s) => isHex64 s | _ => false) &&
    (match jsGet j "signature" with | some s => rawSignatureValid s | none => false) &&
    (match jsGet j "payload_type" with | some (.str s) => s.length ≥ 1 | _ => false) &&
    (match jsGet j "claims" with
     | some (.arr xs) => xs.all (fun x => match x with | .str s => isClaimId s | _ => false)
     | _ => false) &&
    (match jsGet j "artifacts" with
     | some (.arr xs) => xs.all rawDescriptorValid
     | _ => false)
  | _ => false

/-- Failure built by the schema check for a raw event rejected by
`safeParse`; the `event_id` spread keeps truthy string ids. -/
def rawSchemaParseFailure (eid : Option Json) : VerificationFailure :=
  { failure_code := "SCHEMA_INVALID", severity := "medium"
    event_id :=
      (match eid with
       | some v => if jsTruthy v then jstr v else none
       | none => none)
    artifact_hash := none
    message := "Event failed schema validation."
    suggested_action := "Inspect event payload and regenerate trace."
    verification_step := "CHK_SCHEMA_CONFORMANCE" }

/-- One iteration of the CHK_SCHEMA_CONFORMANCE loop over a raw parsed
line, with JavaScript member-access semantics: the failure branch for a
schema-invalid event reads `event.event_id`, which throws when the line
parsed to `null`. -/
def chkSchemaStepRaw (traceId : String) (st : List Json × List VerificationFailure)
    (ev : Json) : Except JsError (List Json × List VerificationFailure) := do
  let (seen, fs) := st
  if ¬ rawEventValid ev then
    let eid ← jsGetThrow ev "event_id"
    pure (seen, fs ++ [rawSchemaParseFailure eid])
  else
    let eid := (jsGet ev "event_id").getD Json.undef
    if seen.any (fun x => x == eid) then
      pure (seen, fs ++ [rawSchemaParseFailure (some eid)])
    else
      let fs1 :=
        if jsGet ev "trace_id" == some (Json.str traceId) then fs
        else fs ++ [rawSchemaParseFailure (some eid)]
      pure (seen ++ [eid], fs1)

/-- Model of CHK_SCHEMA_CONFORMANCE over the raw parsed lines the ledger
hands to the verifier, in the `Except` monad so that a thrown `TypeError`
aborts the whole `verifyTrace` call as it does at runtime. -/
def chkSchemaConformanceRaw (traceId : String) (events : List Json) :
    Except JsError (List VerificationFailure) := do
  let st ← events.foldlM (chkSchemaStepRaw traceId) ([], [])
  pure st.2

/-- A physical line of `events.jsonl` as seen by `JSON.parse`: either a
line that parses to a JSON value, or one that does not. -/
inductive RawLine where
  | jsonLine (j : Json) : RawLine
  | junkLine (s : String) : RawLine

/-- Model of the parse loop of `TraceLedger.readEvents` at the raw JSON
level: every parsed line is returned as is (the cast performs no
validation); the scan stops at the first unparseable line. -/
def readEventsRaw : List RawLine → List Json
  | [] => []
  | .jsonLine j :: rest => j :: readEventsRaw rest
  | .junkLine _ :: _ => []

/-! ### Ledger (`packages/store/src/ledger.ts`)

The events file is modelled at line granularity: a line either holds the
JSON of a well-formed event or is junk that `JSON.parse` rejects.
`terminated` records whether the content ends with a newline.  The
byte-level content is recovered by `contentLength` below, which the
tail-recovery theorem uses to state the truncation offset. -/

/-- A line of the events file: either the serialized JSON of a
well-formed event, or bytes that `JSON.parse` rejects. -/
inductive FileLine where
  | ev (e : ProtocolEvent) : FileLine
  | junk (b : Bytes) : FileLine

/-- The events file: its lines and whether the content ends with a
newline.  The empty file is `⟨[], false⟩`. -/
structure LedgerFile where
  lines : List FileLine
  terminated : Bool

mutual

/-- Model of `JSON.stringify` (insertion order, no added whitespace) on
the values the ledger serializes; only its output length and
concatenation behaviour matter to the theorems below.  `undef` does not
occur in event values. -/
def jsonStringify : Json → Bytes
  | .undef => bstr "null"
  | .null => bstr "null"
  | .bool b => bstr (if b then "true" else "false")
  | .num n => bstr (canonicalNumber n)
  | .str s => bquote s
  | .arr xs =>
    bcat (bchar '[') (bcat (bjoin (bchar ',') (jsonStringifyList xs)) (bchar ']'))
  | .obj kvs =>
    bcat (bchar '\x7b')
      (bcat (bjoin (bchar ',') (jsonStringifyPairs kvs)) (bchar '\x7d'))

/-- Stringify array elements. -/
def jsonStringifyList : List Json → List Bytes
  | [] => []
  | x :: xs => jsonStringify x :: jsonStringifyList xs

/-- Stringify object entries. -/
def jsonStringifyPairs : List (String × Json) → List Bytes
  | [] => []
  | kv :: kvs =>
    bcat (bquote kv.1) (bcat (bchar ':') (jsonStringify kv.2)) ::
      jsonStringifyPairs kvs

end

/-- Full JSON form of an event, key order as constructed by
`buildSignedEvent` (signature, then `event_hash`, last). -/
def eventJsonFull (e : ProtocolEvent) : Json :=
  match eventJsonNoHash e with
  | .obj kvs => .obj (kvs ++ [("event_hash", .str e.event_hash)])
  | j => j

/-- Serialized form of an event as written by `appendEvent`
(`JSON.stringify(event)`, newline excluded). -/
def stringifyEvent (e : ProtocolEvent) : Bytes :=
  jsonStringify (eventJsonFull e)

/-- Bytes of a file line. -/
def lineBytes : FileLine → Bytes
  | .ev e => stringifyEvent e
  | .junk b => b

/-- Byte length of the file content: line bytes joined by newlines, plus
the trailing newline when the content is terminated. -/
def contentLength (f : LedgerFile) : Nat :=
  match f.lines with
  | [] => 0
  | ls =>
    (ls.map (fun l => (lineBytes l).2)).sum + (ls.length - 1) +
      (if f.terminated then 1 else 0)

/-- Scan of the parse loop in `readEvents`: events parsed before the
first junk line, and whether a junk line was found. -/
def splitAtJunk : List FileLine → List ProtocolEvent × Bool
  | [] => ([], false)
  | .ev e :: rest =>
    let (es, m) := splitAtJunk rest
    (e :: es, m)
  | .junk _ :: _ => ([], true)

/-- The well-formed line prefix before the first junk line. -/
def goodHead : List FileLine → List FileLine
  | [] => []
  | .ev e :: rest => .ev e :: goodHead rest
  | .junk _ :: _ => []

/-- Model of `TraceLedger.readEvents`.  Parsing stops at the first
malformed line; when one was found and `recover` is set, the file is
truncated to `max 0 (validByteLength - 1)` bytes, which keeps the
well-formed line prefix but drops the newline that terminated its last
line (hence `terminated := false`).  Returns the parsed events and the
file as left on disk. -/
def readEventsModel (recover : Bool) (f : LedgerFile) :
    List ProtocolEvent × LedgerFile :=
  if f.lines.isEmpty then ([], f)
  else
    let (es, malformed) := splitAtJunk f.lines
    if malformed && recover then (es, ⟨goodHead f.lines, false⟩)
    else (es, f)

/-- Append one serialized event line to the raw content
(`appendFileSync` of `line ++ "\n"`): on an unterminated nonempty file
the new text joins the final line, whose concatenated bytes no longer
parse as JSON. -/
def appendToLines (e : ProtocolEvent) : List FileLine → List FileLine
  | [] => [.ev e]
  | [l] => [.junk (bcat (lineBytes l) (stringifyEvent e))]
  | l :: ls => l :: appendToLines e ls

/-- Model of appending `JSON.stringify(event) ++ "\n"` to the file. -/
def appendLine (f : LedgerFile) (e : ProtocolEvent) : LedgerFile :=
  if f.lines.isEmpty then ⟨[.ev e], true⟩
  else if f.terminated then ⟨f.lines ++ [.ev e], true⟩
  else ⟨appendToLines e f.lines, true⟩

/-- Events held in the well-formed lines of the file. -/
def fileEvents (f : LedgerFile) : List ProtocolEvent :=
  f.lines.filterMap (fun l => match l with | .ev e => some e | .junk _ => none)

/-- A ledger file every line of which is a well-formed event line, with a
terminating newline unless empty — the state the ledger's own appends
maintain. -/
def wellFormedLedger (f : LedgerFile) : Prop :=
  (∃ evs : List ProtocolEvent, f.lines = evs.map FileLine.ev) ∧
    (f.lines = [] ∨ f.terminated = true)

/-- Trace session metadata fields the ledger reads and writes
(`TraceSession`). -/
structure TraceSessionM where
  trace_id : String
  head_event_hash : String
  event_count : Nat
  artifact_count : Nat
  status : String
deriving DecidableEq, Inhabited

/-- State an append operates on: the session metadata and the events
file. -/
structure LedgerState where
  session : TraceSessionM
  file : LedgerFile

/-- Model of `TraceLedger.appendEvent` under the trace lock.  The guards
run in the source's order: trace-id match, chain-head match (both before
any read of the events file), then the duplicate-id scan over
`readEvents` (whose tail recovery may touch the file), then the append
and the session update.  Lock acquisition, lock timeout and I/O failures
are outside the model. -/
def appendEventModel (traceId : String) (e : ProtocolEvent) (st : LedgerState) :
    Except String ProtocolEvent × LedgerState :=
  if e.trace_id ≠ traceId then
    (.error ("Trace mismatch. expected=" ++ traceId ++ " actual=" ++ e.trace_id), st)
  else if e.prev_event_hash ≠ st.session.head_event_hash then
    (.error ("Chain head mismatch for " ++ traceId ++ ". expected prev_event_hash=" ++
      st.session.head_event_hash), st)
  else
    let (events, f1) := readEventsModel true st.file
    if events.any (fun x => x.event_id == e.event_id) then
      (.error ("Duplicate event_id in trace: " ++ e.event_id), { st with file := f1 })
    else
      let f2 := appendLine f1 e
      (.ok e,
       { session :=
           { st.session with
               head_event_hash := e.event_hash
               event_count := st.session.event_count + 1
               artifact_count := st.session.artifact_count + e.artifacts.length }
         file := f2 })

/-- Whether an `Except` result is an error. -/
def isError : Except ε α → Bool
  | .error _ => true
  | .ok _ => false

/-! ### Read API event endpoints (apps/api) and the verifier snapshot -/

/-- Model of `GET /api/traces/:trace_id/events`: read the events with tail
recovery enabled, filter by type and role, then slice by the decoded
cursor offset and limit.  Returns the items, the next offset when more
events remain, and the events file as left on disk. -/
def apiGetTraceEvents (f : LedgerFile) (offset limit : Nat)
    (typeFilter roleFilter : Option String) :
    (List ProtocolEvent × Option Nat) × LedgerFile :=
  let (events0, f1) := readEventsModel true f
  let events1 : List ProtocolEvent :=
    match typeFilter with
    | some t => events0.filter (fun e => e.event_type == t)
    | none => events0
  let events2 : List ProtocolEvent :=
    match roleFilter with
    | some r => events1.filter (fun e => e.actor.role == r)
    | none => events1
  let items := (events2.drop offset).take limit
  let nextOffset := offset + items.length
  ((items, if nextOffset < events2.length then some nextOffset else none), f1)

/-- Model of `GET /api/traces/:trace_id/events/:event_id`: read the
events with tail recovery enabled and find the requested id. -/
def apiGetTraceEventById (f : LedgerFile) (eventId : String) :
    Option ProtocolEvent × LedgerFile :=
  let (events, f1) := readEventsModel true f
  (events.find? (fun e => e.event_id == eventId), f1)

/-- The event snapshot `verifyTrace` takes
(`ledger.readEvents(input.trace_id, true)`). -/
def verifierSnapshot (f : LedgerFile) : List ProtocolEvent × LedgerFile :=
  readEventsModel true f

/-! ### Artifact store (`ArtifactStore.writeArtifact`) -/

/-- Back-reference entry of a sidecar. -/
structure RefEntry where
  trace_id : String
  producer_event_id : String
  created_at : String
deriving DecidableEq, Inhabited

/-- Sidecar contents: the descriptor fields written at creation plus the
reference list (the source stores them flattened in one JSON object). -/
structure Sidecar where
  desc : ArtifactDescriptor
  references : List RefEntry
deriving DecidableEq, Inhabited

/-- On-disk state of the artifact store: blob files and sidecar files,
both keyed by the artifact hash. -/
structure ArtifactStoreState where
  blobs : List (String × String)
  metas : List (String × Sidecar)

/-- Per-call inputs of `writeArtifact` other than the bytes; `now` is the
`nowIso()` reading of the call. -/
structure WriteReq where
  now : String
  trace_id : String
  producer_event_id : String
  media_type : String
  encoding : String
  redaction_status : String
deriving DecidableEq, Inhabited

/-- Sharded storage path of a blob, relative to the store root. -/
def storageUriOf (h : String) : String :=
  "artifacts/sha256/" ++ h.take 2 ++ "/" ++ (h.drop 2).take 2 ++ "/" ++ h ++ ".blob"

/-- Replace the value at the first occurrence of a key. -/
def areplace (k : String) (v : α) : List (String × α) → List (String × α)
  | [] => []
  | (k', v') :: rest =>
    if k' == k then (k', v) :: rest else (k', v') :: areplace k v rest

/-- Number of entries stored under a key. -/
def countKey (k : String) (l : List (String × α)) : Nat :=
  (l.filter (fun kv => kv.1 == k)).length

/-- Model of `ArtifactStore.writeArtifact`: hash the bytes; create the
blob only if absent; create the sidecar with a single reference if
absent, else append the `(trace_id, producer_event_id)` reference when it
is new; the descriptor returned from the existing-sidecar path carries
the original `created_at`, `byte_size`, `media_type` and `encoding`. -/
def writeArtifact (r : WriteReq) (bytes : String) (st : ArtifactStoreState) :
    ArtifactDescriptor × ArtifactStoreState :=
  let h := sha256Hex (bstr bytes)
  let blobs1 :=
    match alookup h st.blobs with
    | none => st.blobs ++ [(h, bytes)]
    | some _ => st.blobs
  let descriptor : ArtifactDescriptor :=
    { artifact_hash := h
      hash_algorithm := "sha256"
      media_type := r.media_type
      encoding := r.encoding
      byte_size := utf8Len bytes
      created_at := r.now
      producer_event_id := r.producer_event_id
      storage_uri := storageUriOf h
      redaction_status := r.redaction_status
      trace_id := some r.trace_id
      integrity_verified_at := some r.now }
  match alookup h st.metas with
  | none =>
    (descriptor,
     { blobs := blobs1
       metas := st.metas ++
         [(h, { desc := descriptor
                references := [⟨r.trace_id, r.producer_event_id, r.now⟩] })] })
  | some current =>
    let alreadyLinked := current.references.any
      (fun x => x.trace_id == r.trace_id && x.producer_event_id == r.producer_event_id)
    let metas1 :=
      if alreadyLinked then st.metas
      else areplace h
        { current with
            references := current.references ++ [⟨r.trace_id, r.producer_event_id, r.now⟩] }
        st.metas
    ({ descriptor with
         created_at := current.desc.created_at
         byte_size := current.desc.byte_size
         media_type := current.desc.media_type
         encoding := current.desc.encoding },
     { blobs := blobs1, metas := metas1 })

/-- Iterated `writeArtifact` of the same bytes, collecting the returned
descriptors. -/
def writeMany (bytes : String) : List WriteReq → ArtifactStoreState →
    List ArtifactDescriptor × ArtifactStoreState
  | [], st => ([], st)
  | r :: rs, st =>
    let (d, st1) := writeArtifact r bytes st
    let (ds, st2) := writeMany bytes rs st1
    (d :: ds, st2)

/-- The `(trace_id, producer_event_id)` pair of a write request. -/
def pairOf (r : WriteReq) : String × String := (r.trace_id, r.producer_event_id)

/-- The pair of a reference entry. -/
def refPair (x : RefEntry) : String × String := (x.trace_id, x.producer_event_id)

/-- First-occurrence deduplication of a pair list, matching how the
reference list grows. -/
def dedupPairs (l : List (String × String)) : List (String × String) :=
  l.foldl (fun acc p => if acc.contains p then acc else acc ++ [p]) []

/-! ### Concrete traces used as witnesses

A clean good-path trace produced through `buildSignedEvent` with the
chain threaded by hand, its registry and artifact store, a tampered
variant for the payload-mutation scenario, and a challenged variant for
the disputed-claim scenario. -/

/-- Trace id of the witness traces. -/
def wTid : String := "01ARZ3NDEKTSV4RRFFQ69G5FAV"

/-- Claim id issued by the witness trace. -/
def wClaimId : String := "claim_01BX5ZZKBKACTAV9WEVGEMMVRZ"

/-- Planner actor. -/
def wPlanner : Actor :=
  { agent_id := "planner-agent", role := "planner", key_id := "key.planner" }

/-- Executor actor. -/
def wExecutor : Actor :=
  { agent_id := "executor-agent", role := "executor", key_id := "key.executor" }

/-- Critic actor. -/
def wCritic : Actor :=
  { agent_id := "critic-agent", role := "critic", key_id := "key.critic" }

/-- Auditor actor. -/
def wAuditor : Actor :=
  { agent_id := "auditor-agent", role := "auditor", key_id := "key.auditor" }

/-- Registry identity for one of the witness agents. -/
def wIdentity (a : Actor) (seed : String) : AgentIdentity :=
  { agent_id := a.agent_id
    display_name := a.agent_id
    role_capabilities := [a.role]
    key_id := a.key_id
    public_key := pubPem seed
    key_algorithm := "ed25519"
    status := "active"
    created_at := "2026-02-01T00:00:00.000Z"
    updated_at := "2026-02-01T00:00:00.000Z"
    revoked_at := none
    revoked_reason := none }

/-- Key registry of the witness traces. -/
def wRegistry : List AgentIdentity :=
  [wIdentity wPlanner "planner", wIdentity wExecutor "executor",
   wIdentity wCritic "critic", wIdentity wAuditor "auditor"]

/-- Bytes of the evidence artifact. -/
def wBytes : String := "evidence-bytes"

/-- Artifact store of the witness traces: the single evidence blob. -/
def wEnv : VerifierEnv :=
  { registry := wRegistry, blobs := [(sha256Hex (bstr wBytes), wBytes)] }

/-- Descriptor of the evidence artifact referenced by the claim event. -/
def wDescriptor : ArtifactDescriptor :=
  { artifact_hash := sha256Hex (bstr wBytes)
    hash_algorithm := "sha256"
    media_type := "text/plain"
    encoding := "utf-8"
    byte_size := utf8Len wBytes
    created_at := "2026-02-01T00:00:02.000Z"
    producer_event_id := "01BX5ZZKBKACTAV9WEVGEMMV02"
    storage_uri := storageUriOf (sha256Hex (bstr wBytes))
    redaction_status := "none"
    trace_id := some wTid
    integrity_verified_at := some "2026-02-01T00:00:02.000Z" }

/-- Event 0 of the witness trace: session initialization (planner). -/
def wE0 : ProtocolEvent :=
  buildSignedEvent
    { trace_id := wTid, event_type := "session_initialized", actor := wPlanner
      payload_type := "session", payload := .obj [("task_id", .str "demo-task")]
      claims := [], artifacts := [], prev_event_hash := genesisPrevHash
      private_key_pem := privPem "planner"
      created_at := "2026-02-01T00:00:00.000Z"
      event_id := "01BX5ZZKBKACTAV9WEVGEMMV00" }

/-- Event 1: proposal (planner). -/
def wE1 : ProtocolEvent :=
  buildSignedEvent
    { trace_id := wTid, event_type := "proposal_created", actor := wPlanner
      payload_type := "proposal", payload := .obj [("objective", .str "do the task")]
      claims := [], artifacts := [], prev_event_hash := wE0.event_hash
      private_key_pem := privPem "planner"
      created_at := "2026-02-01T00:00:01.000Z"
      event_id := "01BX5ZZKBKACTAV9WEVGEMMV01" }

/-- Event 2: claim with evidence (executor). -/
def wE2 : ProtocolEvent :=
  buildSignedEvent
    { trace_id := wTid, event_type := "claim_issued", actor := wExecutor
      payload_type := "claim"
      payload := .obj
        [("claim_id", .str wClaimId),
         ("claim_text", .str "result is correct"),
         ("evidence_artifacts", .arr [.str (sha256Hex (bstr wBytes))])]
      claims := [wClaimId], artifacts := [wDescriptor]
      prev_event_hash := wE1.event_hash
      private_key_pem := privPem "executor"
      created_at := "2026-02-01T00:00:02.000Z"
      event_id := "01BX5ZZKBKACTAV9WEVGEMMV02" }

/-- Event 3: final statement (executor). -/
def wE3 : ProtocolEvent :=
  buildSignedEvent
    { trace_id := wTid, event_type := "final_statement_signed", actor := wExecutor
      payload_type := "statement", payload := .obj [("statement", .str "done")]
      claims := [], artifacts := [], prev_event_hash := wE2.event_hash
      private_key_pem := privPem "executor"
      created_at := "2026-02-01T00:00:03.000Z"
      event_id := "01BX5ZZKBKACTAV9WEVGEMMV03" }

/-- Event 4: verification run start (auditor). -/
def wE4 : ProtocolEvent :=
  buildSignedEvent
    { trace_id := wTid, event_type := "verification_run_started", actor := wAuditor
      payload_type := "verification_run"
      payload := .obj [("policy_profile", .str "default")]
      claims := [], artifacts := [], prev_event_hash := wE3.event_hash
      private_key_pem := privPem "auditor"
      created_at := "2026-02-01T00:00:04.000Z"
      event_id := "01BX5ZZKBKACTAV9WEVGEMMV04" }

/-- Event 5: verification run completion (auditor). -/
def wE5 : ProtocolEvent :=
  buildSignedEvent
    { trace_id := wTid, event_type := "verification_run_completed", actor := wAuditor
      payload_type := "verification_report"
      payload := .obj [("verification_status", .str "pass")]
      claims := [], artifacts := [], prev_event_hash := wE4.event_hash
      private_key_pem := privPem "auditor"
      created_at := "2026-02-01T00:00:05.000Z"
      event_id := "01BX5ZZKBKACTAV9WEVGEMMV05" }

/-- The clean witness trace. -/
def wBase : List ProtocolEvent := [wE0, wE1, wE2, wE3, wE4, wE5]

/-- The S2 tampering: the `payload` of the `proposal_created` event is
replaced with the object holding `tampered: true`; `payload_hash`,
`signature` and every other field are left unchanged. -/
def wTampered : List ProtocolEvent :=
  [wE0, { wE1 with payload := .obj [("tampered", .bool true)] }, wE2, wE3, wE4, wE5]

/-- Challenge event of the disputed-claim trace (critic), chained after
the claim event. -/
def cE3 : ProtocolEvent :=
  buildSignedEvent
    { trace_id := wTid, event_type := "claim_challenged", actor := wCritic
      payload_type := "challenge"
      payload := .obj
        [("challenged_claim_id", .str wClaimId),
         ("reason", .str "insufficient corroborating artifacts")]
      claims := [wClaimId], artifacts := [], prev_event_hash := wE2.event_hash
      private_key_pem := privPem "critic"
      created_at := "2026-02-01T00:00:03.000Z"
      event_id := "01BX5ZZKBKACTAV9WEVGEMMV13" }

/-- Final statement of the disputed-claim trace. -/
def cE4 : ProtocolEvent :=
  buildSignedEvent
    { trace_id := wTid, event_type := "final_statement_signed", actor := wExecutor
      payload_type := "statement", payload := .obj [("statement", .str "done")]
      claims := [], artifacts := [], prev_event_hash := cE3.event_hash
      private_key_pem := privPem "executor"
      created_at := "2026-02-01T00:00:04.000Z"
      event_id := "01BX5ZZKBKACTAV9WEVGEMMV14" }

/-- Verification start of the disputed-claim trace. -/
def cE5 : ProtocolEvent :=
  buildSignedEvent
    { trace_id := wTid, event_type := "verification_run_started", actor := wAuditor
      payload_type := "verification_run"
      payload := .obj [("policy_profile", .str "default")]
      claims := [], artifacts := [], prev_event_hash := cE4.event_hash
      private_key_pem := privPem "auditor"
      created_at := "2026-02-01T00:00:05.000Z"
      event_id := "01BX5ZZKBKACTAV9WEVGEMMV15" }

/-- Verification completion of the disputed-claim trace. -/
def cE6 : ProtocolEvent :=
  buildSignedEvent
    { trace_id := wTid, event_type := "verification_run_completed", actor := wAuditor
      payload_type := "verification_report"
      payload := .obj [("verification_status", .str "pass")]
      claims := [], artifacts := [], prev_event_hash := cE5.event_hash
      private_key_pem := privPem "auditor"
      created_at := "2026-02-01T00:00:06.000Z"
      event_id := "01BX5ZZKBKACTAV9WEVGEMMV16" }

/-- The disputed-claim witness trace: the clean prefix, a valid
`claim_challenged` pointing at the sole claim, then finalization. -/
def cTrace : List ProtocolEvent := [wE0, wE1, wE2, cE3, cE4, cE5, cE6]

/-- Minimal event used by checks that read only the event type:
CHK_FINALIZATION_INTEGRITY inspects nothing else. -/
def bareEvent (ty eid : String) : ProtocolEvent :=
  { schema_version := "1.0.0", trace_id := wTid, event_id := eid
    event_type := ty, created_at := "2026-02-01T00:00:00.000Z"
    actor := wAuditor, payload_hash := "", prev_event_hash := ""
    event_hash := "", signature := none, payload_type := "x"
    payload := .null, claims := [], artifacts := [] }

/-- Snapshot with two `final_statement_signed` events (plus the start and
completion events, in a legal order). -/
def twoFinalEvents : List ProtocolEvent :=
  [bareEvent "final_statement_signed" "01BX5ZZKBKACTAV9WEVGEMMV20",
   bareEvent "final_statement_signed" "01BX5ZZKBKACTAV9WEVGEMMV21",
   bareEvent "verification_run_started" "01BX5ZZKBKACTAV9WEVGEMMV22",
   bareEvent "verification_run_completed" "01BX5ZZKBKACTAV9WEVGEMMV23"]

/-- The mixed-case object of the canonicalization scenario. -/
def mixedCaseObj : Json := .obj [("B", .num 1), ("a", .num 2)]

/-- Events file holding one good event line followed by a malformed
line. -/
def wBadTailFile : LedgerFile :=
  ⟨[.ev wE0, .junk (bstr "garbage")], true⟩

/-- The file `readEvents` leaves behind after recovering
`wBadTailFile`. -/
def wRecoveredFile : LedgerFile := ⟨[.ev wE0], false⟩

/-- Ledger state of the append witness: one committed event, terminated
file, session head at that event's hash. -/
def wLedgerState : LedgerState :=
  { session :=
      { trace_id := wTid, head_event_hash := wE0.event_hash
        event_count := 1, artifact_count := 0, status := "running" }
    file := ⟨[.ev wE0], true⟩ }

/-- First artifact write request of the dedup witness. -/
def wReq0 : WriteReq :=
  { now := "2026-02-01T00:00:02.000Z", trace_id := wTid
    producer_event_id := "01BX5ZZKBKACTAV9WEVGEMMV02"
    media_type := "text/plain", encoding := "utf-8", redaction_status := "none" }

/-- Second artifact write request, from a different trace and producer. -/
def wReq1 : WriteReq :=
  { now := "2026-02-01T00:00:09.000Z", trace_id := "01ARZ3NDEKTSV4RRFFQ69G5FB0"
    producer_event_id := "01BX5ZZKBKACTAV9WEVGEMMV32"
    media_type := "application/octet-stream", encoding := "binary"
    redaction_status := "none" }

/-- Invariant of the artifact store at a hash after a first write of the
bytes `b` under request `w0` and a history `seen` of `(trace_id,
producer_event_id)` pairs: exactly one blob entry, holding `b`; a sidecar
whose creation fields are those of the first write and whose reference
pairs are the first-occurrence deduplication of the history. -/
def dedupInv (b : String) (w0 : WriteReq) (seen : List (String × String))
    (st : ArtifactStoreState) : Prop :=
  countKey (sha256Hex (bstr b)) st.blobs = 1 ∧
  alookup (sha256Hex (bstr b)) st.blobs = some b ∧
  ∃ sc : Sidecar, alookup (sha256Hex (bstr b)) st.metas = some sc ∧
    sc.desc.created_at = w0.now ∧ sc.desc.byte_size = utf8Len b ∧
    sc.desc.media_type = w0.media_type ∧ sc.desc.encoding = w0.encoding ∧
    sc.references.map refPair = dedupPairs seen

/-! ## Theorems -/

/-- Accumulator form of the event-hash check's loop. -/
theorem chkEventHash_foldl (l : List ProtocolEvent) (acc : List VerificationFailure) :
    l.foldl
      (fun fs e =>
        if computeEventHash e ≠ e.event_hash then fs ++ [hashMismatchFailure e] else fs)
      acc =
      acc ++
        (l.filter (fun e => decide (computeEventHash e ≠ e.event_hash))).map
          hashMismatchFailure := by
  induction l generalizing acc with
  | nil => simp
  | cons e l ih =>
    by_cases h : computeEventHash e ≠ e.event_hash
    · rw [List.foldl_cons, if_pos h, ih,
        List.filter_cons_of_pos (by simpa using h), List.map_cons]
      simp
    · rw [List.foldl_cons, if_neg h, ih,
        List.filter_cons_of_neg (by simpa using h)]

/-- C2: CHK_EVENT_HASH_INTEGRITY emits a HASH_MISMATCH failure of
severity critical for exactly the events whose stored `event_hash`
differs from the digest of the canonical form of the event with only the
`event_hash` field removed (the signature is part of the hashed form,
see `eventJsonNoHash`), and events built by `buildSignedEvent` satisfy
the event-hash rule. -/
theorem eventHashIntegrity_characterization :
    (∀ events : List ProtocolEvent,
      chkEventHashIntegrity events =
        (events.filter (fun e => decide (computeEventHash e ≠ e.event_hash))).map
          hashMismatchFailure) ∧
    (∀ e : ProtocolEvent,
      (hashMismatchFailure e).failure_code = "HASH_MISMATCH" ∧
      (hashMismatchFailure e).severity = "critical" ∧
      (hashMismatchFailure e).verification_step = "CHK_EVENT_HASH_INTEGRITY" ∧
      (hashMismatchFailure e).event_id = some e.event_id) ∧
    (∀ inp : BuildEventInput,
      (buildSignedEvent inp).event_hash = computeEventHash (buildSignedEvent inp)) := by
  refine ⟨fun events => ?_, fun e => ⟨rfl, rfl, rfl, rfl⟩, fun inp => rfl⟩
  have h := chkEventHash_foldl events []
  simpa [chkEventHashIntegrity] using h

/-- C4: on a file holding one good event line and a malformed trailing
line, `readEvents` returns the events of the good prefix and truncates —
but to one byte short of the newline-terminated prefix
(`validByteLength - 1`), leaving the last good line unterminated; a
second read is idempotent; and a subsequent append then joins the next
event onto the unterminated line, producing a single malformed line that
a later read parses as zero events. -/
theorem readEvents_tailRecovery_eval :
    readEventsModel true wBadTailFile = ([wE0], wRecoveredFile) ∧
    readEventsModel true wRecoveredFile = ([wE0], wRecoveredFile) ∧
    contentLength wRecoveredFile + 1 = contentLength ⟨[.ev wE0], true⟩ ∧
    appendLine wRecoveredFile wE1 =
      ⟨[.junk (bcat (stringifyEvent wE0) (stringifyEvent wE1))], true⟩ ∧
    (readEventsModel true (appendLine wRecoveredFile wE1)).1 = [] := by
  refine ⟨rfl, rfl, ?_, rfl, rfl⟩
  simp [contentLength, wRecoveredFile, lineBytes]

/-- C5: the canonicalizer sorts object keys with `localeCompare`, so the
mixed-case object with keys `B` and `a` is emitted with `a` first, while
code-point lexicographic order (what the specification and RFC 8785
require, where `B` precedes `a`) yields the other order. -/
theorem canonicalize_localeCompare_eval :
    canonicalize mixedCaseObj = some (bstr "\x7b\"a\":2,\"B\":1\x7d") ∧
    canonicalizeCodePoint mixedCaseObj = some (bstr "\x7b\"B\":1,\"a\":2\x7d") ∧
    codePointLt "B" "a" = true ∧
    canonicalize mixedCaseObj ≠ canonicalizeCodePoint mixedCaseObj := by
  refine ⟨?_, ?_, ?_, ?_⟩ <;> decide

/-- C8: a ledger line containing `null` is accepted by `JSON.parse`, so
`readEvents` hands it to the verifier unvalidated, and the very first
check (CHK_SCHEMA_CONFORMANCE) throws a TypeError while building the
SCHEMA_INVALID failure, because it reads `event.event_id` off `null` —
the verifier raises for a data-integrity problem instead of reporting
it. -/
theorem verifier_raises_on_null_line :
    readEventsRaw [RawLine.jsonLine Json.null] = [Json.null] ∧
    chkSchemaConformanceRaw wTid [Json.null] = .error .typeError := by
  exact ⟨rfl, rfl⟩

/-- C6 counterexample: a snapshot with two `final_statement_signed`
events (and well-ordered start/completion events) produces no failure in
CHK_FINALIZATION_INTEGRITY and the check passes, so the check does not
enforce "exactly one", only "at least one". -/
theorem finalization_twoFinals_counterexample :
    (twoFinalEvents.filter
      (fun e => e.event_type == "final_statement_signed")).length = 2 ∧
    chkFinalizationIntegrity false twoFinalEvents = ([], []) ∧
    finalizationStatus false twoFinalEvents = "pass" := by
  refine ⟨?_, ?_, ?_⟩ <;> decide

/-- C6 amended: CHK_FINALIZATION_INTEGRITY emits its SCHEMA_INVALID
missing-final-statement failure (and hence fails) exactly when no
`final_statement_signed` event is present; snapshots with two or more
are not flagged by this condition. -/
theorem finalization_missingOnly (events : List ProtocolEvent) (allow : Bool) :
    (missingFinalFailure ∈ (chkFinalizationIntegrity allow events).1 ↔
      events.findIdx? (fun e => e.event_type == "final_statement_signed") = none) ∧
    (events.findIdx? (fun e => e.event_type == "final_statement_signed") = none →
      finalizationStatus allow events = "fail") := by
  have hcode1 : missingFinalFailure ≠ missingStartedFailure := by decide
  have hcode2 : missingFinalFailure ≠ missingCompletedFailure := by decide
  have hcode3 : ∀ o, missingFinalFailure ≠ finalAfterCompletedFailure o := by
    intro o hEq
    have hc := congrArg VerificationFailure.failure_code hEq
    simp [missingFinalFailure, finalAfterCompletedFailure] at hc
  constructor
  · constructor
    · intro hmem
      rcases hfin : (events.findIdx? (fun e => e.event_type == "final_statement_signed")) with _ | i
      · exact hfin
      · exfalso
        rcases hcomp : (events.findIdx? (fun e => e.event_type == "verification_run_completed")) with _ | j
        all_goals rcases hstart : (events.findIdx? (fun e => e.event_type == "verification_run_started")) with _ | k
        all_goals cases allow
        all_goals
          simp [chkFinalizationIntegrity, hfin, hcomp, hstart,
            hcode1, hcode2, hcode3] at hmem
    · intro hnone
      simp [chkFinalizationIntegrity, hnone]
  · intro hnone
    simp [finalizationStatus, chkFinalizationIntegrity, hnone]

/-- Witness for the amended C6 statement at the empty snapshot. -/
theorem finalization_missingOnly_witness :
    missingFinalFailure ∈ (chkFinalizationIntegrity false []).1 ∧
    finalizationStatus false [] = "fail" :=
  ⟨(finalization_missingOnly [] false).1.mpr rfl,
   (finalization_missingOnly [] false).2 rfl⟩

/-- C1: the clean witness trace passes; replacing the `payload` of its
`proposal_created` event with the `tampered: true` object (leaving
`payload_hash` and `signature` unchanged) does not change the canonical
signed bytes — `payload` is not among the signed fields — so the
verifier reports exactly a HASH_MISMATCH and no SIG_INVALID, although
the repository's own test and documentation expect SIG_INVALID for this
scenario. -/
theorem payloadMutation_no_sigInvalid :
    (verifyTraceModel wTid "default" false wEnv wBase).verification_status = "pass" ∧
    canonicalSignedBytes { wE1 with payload := .obj [("tampered", .bool true)] } =
      canonicalSignedBytes wE1 ∧
    ((verifyTraceModel wTid "default" false wEnv wTampered).failures.map
      (fun f => f.failure_code)) = ["HASH_MISMATCH"] ∧
    "SIG_INVALID" ∉ ((verifyTraceModel wTid "default" false wEnv wTampered).failures.map
      (fun f => f.failure_code)) := by
  have h3 : ((verifyTraceModel wTid "default" false wEnv wTampered).failures.map
      (fun f => f.failure_code)) = ["HASH_MISMATCH"] := by decide
  refine ⟨by decide, rfl, h3, ?_⟩
  rw [h3]
  decide

/-- Scanning an all-event line list finds no malformed line. -/
theorem splitAtJunk_map_ev (evs : List ProtocolEvent) :
    splitAtJunk (evs.map FileLine.ev) = (evs, false) := by
  induction evs with
  | nil => rfl
  | cons e l ih => simp [splitAtJunk, ih]

/-- Scanning stops at the first malformed line and keeps the events
before it. -/
theorem splitAtJunk_upTo (evs : List ProtocolEvent) (b : Bytes) (rest : List FileLine) :
    splitAtJunk (evs.map FileLine.ev ++ FileLine.junk b :: rest) = (evs, true) := by
  induction evs with
  | nil => rfl
  | cons e l ih => simp [splitAtJunk, ih]

/-- The well-formed line prefix before the first malformed line. -/
theorem goodHead_upTo (evs : List ProtocolEvent) (b : Bytes) (rest : List FileLine) :
    goodHead (evs.map FileLine.ev ++ FileLine.junk b :: rest) = evs.map FileLine.ev := by
  induction evs with
  | nil => rfl
  | cons e l ih => simp [goodHead, ih]

/-- Events of an all-event line list. -/
theorem fileEvents_map_ev (evs : List ProtocolEvent) (t : Bool) :
    fileEvents ⟨evs.map FileLine.ev, t⟩ = evs := by
  induction evs with
  | nil => rfl
  | cons e l ih => simpa [fileEvents] using congrArg (fun xs => e :: xs) (by simpa [fileEvents] using ih)

/-- On a well-formed ledger file, `readEvents` returns its events and
leaves the file untouched. -/
theorem readEvents_wellFormed (f : LedgerFile) (h : wellFormedLedger f) :
    readEventsModel true f = (fileEvents f, f) := by
  obtain ⟨⟨evs, hl⟩, _⟩ := h
  by_cases hnil : f.lines.isEmpty
  · have hl0 : f.lines = [] := by simpa [List.isEmpty_iff] using hnil
    simp [readEventsModel, hnil, fileEvents, hl0]
  · obtain ⟨ls, t⟩ := f
    simp only at hl
    subst hl
    simp only [readEventsModel, hnil, Bool.false_eq_true, if_false,
      splitAtJunk_map_ev, Bool.false_and, fileEvents_map_ev]

/-- A malformed line is not an event line. -/
theorem junk_notin_map_ev (b : Bytes) (evs : List ProtocolEvent) :
    FileLine.junk b ∉ evs.map FileLine.ev := by
  intro hmem
  rcases List.mem_map.mp hmem with ⟨x, _, hx⟩
  simp at hx

/-- C3: under the well-formed files the ledger's own appends maintain,
`appendEvent` propagates an error to the caller exactly when the event's
`trace_id` differs from the trace, its `prev_event_hash` differs from
the session head, or a committed event already carries its `event_id`;
and on every rejection the ledger state — events file and session
metadata (head hash, counts, status) — is unchanged. -/
theorem appendEvent_reject_iff (traceId : String) (e : ProtocolEvent) (st : LedgerState)
    (hwf : wellFormedLedger st.file) :
    (isError (appendEventModel traceId e st).1 = true ↔
      (e.trace_id ≠ traceId ∨ e.prev_event_hash ≠ st.session.head_event_hash ∨
        ∃ x ∈ fileEvents st.file, x.event_id = e.event_id)) ∧
    (isError (appendEventModel traceId e st).1 = true →
      (appendEventModel traceId e st).2 = st) := by
  have hre := readEvents_wellFormed st.file hwf
  by_cases h1 : e.trace_id = traceId
  · by_cases h2 : e.prev_event_hash = st.session.head_event_hash
    · by_cases h3 : (fileEvents st.file).any (fun x => x.event_id == e.event_id)
      · have hex : ∃ x ∈ fileEvents st.file, x.event_id = e.event_id := by
          simpa [List.any_eq_true] using h3
        constructor
        · simp [appendEventModel, h1, h2, hre, h3, isError, hex]
        · intro _
          simp [appendEventModel, h1, h2, hre, h3]
      · have hnex : ¬ ∃ x ∈ fileEvents st.file, x.event_id = e.event_id := by
          simpa [List.any_eq_true] using h3
        constructor
        · simp [appendEventModel, h1, h2, hre, h3, isError, hnex]
        · intro hcontra
          exfalso
          simp [appendEventModel, h1, h2, hre, h3, isError] at hcontra
    · constructor
      · simp [appendEventModel, h1, h2, isError]
      · intro _
        simp [appendEventModel, h1, h2]
  · constructor
    · simp [appendEventModel, h1, isError]
    · intro _
      simp [appendEventModel, h1]

/-- Witness for C3: appending an event whose `trace_id` does not match
the addressed trace is rejected and leaves the state unchanged. -/
theorem appendEvent_reject_iff_witness :
    isError (appendEventModel "not-the-trace" wE1 wLedgerState).1 = true ∧
    (appendEventModel "not-the-trace" wE1 wLedgerState).2 = wLedgerState := by
  have h := appendEvent_reject_iff "not-the-trace" wE1 wLedgerState
    ⟨⟨[wE0], rfl⟩, Or.inr rfl⟩
  have herr : isError (appendEventModel "not-the-trace" wE1 wLedgerState).1 = true :=
    h.1.mpr (Or.inl (by decide))
  exact ⟨herr, h.2 herr⟩

/-- C10: reading events is not a pure read — on a file with a malformed
trailing line, every `readEvents` call with the recover flag (the events
endpoints pass `true`, which is also the default, and so does the
verifier's snapshot) truncates the file as a side effect, so serving
`GET /api/traces/:trace_id/events` or
`GET /api/traces/:trace_id/events/:event_id` modifies the ledger file on
disk. -/
theorem readEvents_get_side_effect (evs : List ProtocolEvent) (b : Bytes)
    (rest : List FileLine) (f : LedgerFile) (offset limit : Nat)
    (typeFilter roleFilter : Option String) (eventId : String)
    (hl : f.lines = evs.map FileLine.ev ++ FileLine.junk b :: rest) :
    readEventsModel true f = (evs, ⟨evs.map FileLine.ev, false⟩) ∧
    (⟨evs.map FileLine.ev, false⟩ : LedgerFile) ≠ f ∧
    (apiGetTraceEvents f offset limit typeFilter roleFilter).2 =
      ⟨evs.map FileLine.ev, false⟩ ∧
    (apiGetTraceEventById f eventId).2 = ⟨evs.map FileLine.ev, false⟩ ∧
    verifierSnapshot f = (evs, ⟨evs.map FileLine.ev, false⟩) := by
  have hnil : f.lines.isEmpty = false := by
    rw [hl]; cases evs <;> simp
  have hread : readEventsModel true f = (evs, ⟨evs.map FileLine.ev, false⟩) := by
    simp [readEventsModel, hnil, hl, splitAtJunk_upTo, goodHead_upTo]
  refine ⟨hread, ?_, ?_, ?_, hread⟩
  · intro hEq
    have hj : FileLine.junk b ∈ f.lines := by
      rw [hl]
      exact List.mem_append_right _ (List.mem_cons_self _ _)
    rw [← hEq] at hj
    exact junk_notin_map_ev b evs hj
  · simp [apiGetTraceEvents, hread]
  · simp [apiGetTraceEventById, hread]

/-- Witness for C10 at a concrete file with one good line and a
malformed tail. -/
theorem readEvents_get_side_effect_witness :
    readEventsModel true wBadTailFile = ([wE0], ⟨[wE0].map FileLine.ev, false⟩) ∧
    (⟨[wE0].map FileLine.ev, false⟩ : LedgerFile) ≠ wBadTailFile ∧
    (apiGetTraceEvents wBadTailFile 0 100 none none).2 =
      ⟨[wE0].map FileLine.ev, false⟩ ∧
    (apiGetTraceEventById wBadTailFile "nope").2 = ⟨[wE0].map FileLine.ev, false⟩ ∧
    verifierSnapshot wBadTailFile = ([wE0], ⟨[wE0].map FileLine.ev, false⟩) :=
  readEvents_get_side_effect [wE0] (bstr "garbage") [] wBadTailFile 0 100 none none
    "nope" rfl

/-- A fold whose step ignores elements outside a filter equals the fold
over the filtered list. -/
theorem foldl_filter_step {α β : Type} (p : α → Bool) (g : β → α → β)
    (hg : ∀ b a, p a = false → g b a = b) :
    ∀ (l : List α) (b : β), l.foldl g b = (l.filter p).foldl g b := by
  intro l
  induction l with
  | nil => intro b; rfl
  | cons a l ih =>
    intro b
    by_cases h : p a
    · rw [List.foldl_cons, List.filter_cons_of_pos (by simpa using h), List.foldl_cons, ih]
    · rw [List.foldl_cons, hg b a (by simpa using h),
        List.filter_cons_of_neg (by simpa using h), ih]

/-- The claim-evidence step ignores events that are not
`claim_issued`. -/
theorem claimStep_skip (profile : String) (S V : List String)
    (ch : List (Json × ProtocolEvent))
    (st : List VerificationFailure × List VerificationWarning) (e : ProtocolEvent)
    (h : (e.event_type == "claim_issued") = false) :
    claimStep profile S V ch st e = st := by
  obtain ⟨fs, ws⟩ := st
  have hne : e.event_type ≠ "claim_issued" := by
    intro heq
    simp [heq] at h
  simp [claimStep, hne]

/-- Evaluation of CHK_CLAIM_EVIDENCE_SUFFICIENCY on a trace whose only
`claim_issued` event is well-evidenced, signed and disputed without
resolution: strict yields exactly the CLAIM_UNPROVEN failure, any other
profile exactly the CLAIM_DISPUTED warning. -/
theorem chkClaimEvidence_single (profile : String) (S V : List String)
    (events : List ProtocolEvent) (claimEvent challengeEvent : ProtocolEvent) (cid : Json)
    (hOnly : events.filter (fun e => e.event_type == "claim_issued") = [claimEvent])
    (hCid : claimIdOf claimEvent = some cid)
    (hTruthy : jsTruthy cid = true)
    (hEvid : (evidenceOf claimEvent).isEmpty = false)
    (hEvOk : (evidenceOf claimEvent).all
      (fun x => match x with
       | Json.str s => V.contains s
       | _ => false) = true)
    (hSigOk : S.contains claimEvent.event_id = true)
    (hChal : mapGet (challengedMapOf events) cid = some challengeEvent)
    (hRes : resolvedTrue claimEvent.payload = false) :
    chkClaimEvidence profile S V events =
      (if profile == "strict" then ([claimDisputedFailure cid challengeEvent], [])
       else ([], [claimDisputedWarning cid challengeEvent])) := by
  have hty : claimEvent.event_type = "claim_issued" := by
    have hmem : claimEvent ∈ events.filter (fun e => e.event_type == "claim_issued") := by
      rw [hOnly]; simp
    simpa using List.of_mem_filter hmem
  have hEvOk2 : ∀ x ∈ evidenceOf claimEvent,
      (match x with
       | Json.str s => V.contains s
       | _ => false) = true := by
    simpa [List.all_eq_true] using hEvOk
  have hSigOk2 : claimEvent.event_id ∈ S := by simpa using hSigOk
  unfold chkClaimEvidence
  rw [foldl_filter_step (fun e => e.event_type == "claim_issued")
    (claimStep profile S V (challengedMapOf events))
    (fun st a h => claimStep_skip profile S V (challengedMapOf events) st a h) events ([], []),
    hOnly]
  have hnex : ¬ ∃ x ∈ evidenceOf claimEvent,
      (match x with
       | Json.str s => decide (s ∈ V)
       | _ => false) = false := by
    rintro ⟨x, hx, hf⟩
    have hx2 := hEvOk2 x hx
    cases x <;> simp_all
  simp [claimStep, hty, hCid, hTruthy, hEvid, hChal, hRes, hEvOk2, hSigOk2, hnex]

/-- C7: on a trace that otherwise verifies cleanly (every other check
yields no failures and no warnings), whose single issued claim is
well-evidenced and validly signed but is referenced by a
`claim_challenged` event and not resolved, the strict profile yields
verdict `fail` with exactly one CLAIM_UNPROVEN failure of severity high,
while the default profile yields verdict `pass-with-warnings` with no
failure and exactly one CLAIM_DISPUTED warning of severity medium. -/
theorem disputedClaim_policy (traceId : String) (env : VerifierEnv)
    (events : List ProtocolEvent) (claimEvent challengeEvent : ProtocolEvent)
    (cid : Json) (S E V : List String)
    (hOnly : events.filter (fun e => e.event_type == "claim_issued") = [claimEvent])
    (hCid : claimIdOf claimEvent = some cid)
    (hTruthy : jsTruthy cid = true)
    (hEvid : (evidenceOf claimEvent).isEmpty = false)
    (hEvOk : (evidenceOf claimEvent).all
      (fun x => match x with
       | Json.str s => V.contains s
       | _ => false) = true)
    (hSigOk : S.contains claimEvent.event_id = true)
    (hChal : mapGet (challengedMapOf events) cid = some challengeEvent)
    (hRes : resolvedTrue claimEvent.payload = false)
    (hSchema : chkSchemaConformance traceId events = [])
    (hHash : chkEventHashIntegrity events = [])
    (hChain : chkChainContinuity events = [])
    (hSig : chkSignatureValidity env.registry events = ([], S))
    (hKey : chkKeyStatus env.registry events = [])
    (hAE : chkArtifactExistence env.blobs events = ([], E))
    (hAH : chkArtifactHashMatch env.blobs E = ([], V))
    (hRole : chkRolePolicy events = [])
    (hFin : chkFinalizationIntegrity false events = ([], [])) :
    (verifyTraceModel traceId "strict" false env events).verification_status = "fail" ∧
    (verifyTraceModel traceId "strict" false env events).failures =
      [claimDisputedFailure cid challengeEvent] ∧
    (claimDisputedFailure cid challengeEvent).failure_code = "CLAIM_UNPROVEN" ∧
    (claimDisputedFailure cid challengeEvent).severity = "high" ∧
    (verifyTraceModel traceId "default" false env events).verification_status =
      "pass-with-warnings" ∧
    (verifyTraceModel traceId "default" false env events).failures = [] ∧
    (verifyTraceModel traceId "default" false env events).warnings =
      [claimDisputedWarning cid challengeEvent] ∧
    (claimDisputedWarning cid challengeEvent).warning_code = "CLAIM_DISPUTED" ∧
    (claimDisputedWarning cid challengeEvent).severity = "medium" := by
  have hclaimS :=
    chkClaimEvidence_single "strict" S V events claimEvent challengeEvent cid
      hOnly hCid hTruthy hEvid hEvOk hSigOk hChal hRes
  have hclaimD :=
    chkClaimEvidence_single "default" S V events claimEvent challengeEvent cid
      hOnly hCid hTruthy hEvid hEvOk hSigOk hChal hRes
  simp only [if_pos, if_neg, beq_self_eq_true, reduceCtorEq] at hclaimS
  refine ⟨?_, ?_, rfl, rfl, ?_, ?_, ?_, rfl, rfl⟩ <;>
    simp [verifyTraceModel, hSchema, hHash, hChain, hSig, hKey, hAE, hAH, hRole,
      hFin, hclaimS, hclaimD]

/-- Witness for C7 at the concrete disputed-claim trace. -/
theorem disputedClaim_policy_witness :
    (verifyTraceModel wTid "strict" false wEnv cTrace).verification_status = "fail" ∧
    (verifyTraceModel wTid "strict" false wEnv cTrace).failures =
      [claimDisputedFailure (Json.str wClaimId) cE3] ∧
    (verifyTraceModel wTid "default" false wEnv cTrace).verification_status =
      "pass-with-warnings" ∧
    (verifyTraceModel wTid "default" false wEnv cTrace).failures = [] ∧
    (verifyTraceModel wTid "default" false wEnv cTrace).warnings =
      [claimDisputedWarning (Json.str wClaimId) cE3] := by
  have h := disputedClaim_policy wTid wEnv cTrace wE2 cE3 (Json.str wClaimId)
    ((chkSignatureValidity wRegistry cTrace).2)
    ((chkArtifactExistence wEnv.blobs cTrace).2)
    ((chkArtifactHashMatch wEnv.blobs (chkArtifactExistence wEnv.blobs cTrace).2).2)
    rfl rfl (by decide) (by decide) (by decide) (by decide) rfl (by decide)
    (by decide) (by decide) (by decide) (by decide) (by decide) (by decide)
    (by decide) (by decide) (by decide)
  exact ⟨h.1, h.2.1, h.2.2.2.2.1, h.2.2.2.2.2.1, h.2.2.2.2.2.2.1⟩

/-- A key absent from an association list is stored zero times. -/
theorem countKey_zero {α : Type} (k : String) (l : List (String × α))
    (h : alookup k l = none) : countKey k l = 0 := by
  induction l with
  | nil => rfl
  | cons kv rest ih =>
    by_cases hk : kv.1 == k
    · simp [alookup, hk] at h
    · obtain ⟨k', v⟩ := kv
      simp [alookup, hk] at h ⊢
      simp at hk
      simpa [countKey, hk] using ih (by simpa [alookup, hk] using h)

/-- Appending an entry adds one occurrence of its key. -/
theorem countKey_append {α : Type} (k : String) (l : List (String × α)) (v : α) :
    countKey k (l ++ [(k, v)]) = countKey k l + 1 := by
  simp [countKey, List.filter_append]

/-- Looking up a key appended to a list where it was absent. -/
theorem alookup_append_right {α : Type} (k : String) (l : List (String × α)) (v : α)
    (h : alookup k l = none) : alookup k (l ++ [(k, v)]) = some v := by
  induction l with
  | nil => simp [alookup]
  | cons kv rest ih =>
    obtain ⟨k1, v1⟩ := kv
    simp only [alookup] at h
    by_cases hk : (k1 == k) = true
    · rw [if_pos hk] at h
      cases h
    · rw [if_neg hk] at h
      simp only [List.cons_append, alookup]
      rw [if_neg hk]
      exact ih h

/-- Replacing the value at a present key makes lookup return it. -/
theorem alookup_areplace {α : Type} (k : String) (l : List (String × α)) (v cur : α)
    (h : alookup k l = some cur) : alookup k (areplace k v l) = some v := by
  induction l with
  | nil => simp [alookup] at h
  | cons kv rest ih =>
    obtain ⟨k1, v1⟩ := kv
    simp only [alookup] at h
    by_cases hk : (k1 == k) = true
    · simp [areplace, alookup, hk]
    · rw [if_neg hk] at h
      simp only [areplace]
      rw [if_neg hk]
      simp only [alookup]
      rw [if_neg hk]
      exact ih h

/-- Elements of the deduplicating fold. -/
theorem mem_dedup_foldl (l : List (String × String)) :
    ∀ (acc : List (String × String)) (q : String × String),
      q ∈ l.foldl (fun acc p => if acc.contains p then acc else acc ++ [p]) acc ↔
        q ∈ acc ∨ q ∈ l := by
  induction l with
  | nil => intro acc q; simp
  | cons a l ih =>
    intro acc q
    rw [List.foldl_cons]
    by_cases h : acc.contains a
    · rw [if_pos h, ih]
      have ha : a ∈ acc := by simpa using h
      constructor
      · rintro (hq | hq)
        · exact Or.inl hq
        · exact Or.inr (List.mem_cons_of_mem a hq)
      · rintro (hq | hq)
        · exact Or.inl hq
        · rcases List.mem_cons.mp hq with hq | hq
          · exact Or.inl (hq ▸ ha)
          · exact Or.inr hq
    · rw [if_neg h, ih]
      constructor
      · rintro (hq | hq)
        · rcases List.mem_append.mp hq with hq | hq
          · exact Or.inl hq
          · simp at hq
            exact Or.inr (by simp [hq])
        · exact Or.inr (List.mem_cons_of_mem a hq)
      · rintro (hq | hq)
        · exact Or.inl (List.mem_append_left _ hq)
        · rcases List.mem_cons.mp hq with hq | hq
          · exact Or.inl (by simp [hq])
          · exact Or.inr hq

/-- Membership in the deduplicated pair list. -/
theorem mem_dedupPairs (l : List (String × String)) (q : String × String) :
    q ∈ dedupPairs l ↔ q ∈ l := by
  simpa [dedupPairs] using mem_dedup_foldl l [] q

/-- One deduplication step at the end of the history. -/
theorem dedupPairs_snoc (l : List (String × String)) (p : String × String) :
    dedupPairs (l ++ [p]) =
      if (dedupPairs l).contains p then dedupPairs l else dedupPairs l ++ [p] := by
  simp [dedupPairs, List.foldl_append]

/-- Deduplicating a duplicate-free history is the identity. -/
theorem dedup_foldl_nodup (l : List (String × String)) :
    ∀ acc : List (String × String), l.Nodup → (∀ x ∈ l, x ∉ acc) →
      l.foldl (fun acc p => if acc.contains p then acc else acc ++ [p]) acc = acc ++ l := by
  induction l with
  | nil => intro acc _ _; simp
  | cons a l ih =>
    intro acc hnd hdisj
    rw [List.foldl_cons, if_neg]
    · rw [ih (acc ++ [a]) (List.Nodup.of_cons hnd)]
      · simp
      · intro x hx
        rcases List.nodup_cons.mp hnd with ⟨hna, _⟩
        intro hmem
        rcases List.mem_append.mp hmem with hmem | hmem
        · exact hdisj x (List.mem_cons_of_mem a hx) hmem
        · simp at hmem
          exact hna (hmem ▸ hx)
    · simpa using hdisj a (List.mem_cons_self a l)

/-- Deduplicating a duplicate-free pair list is the identity. -/
theorem dedupPairs_nodup (l : List (String × String)) (h : l.Nodup) :
    dedupPairs l = l := by
  simpa [dedupPairs] using dedup_foldl_nodup l [] h (by simp)

/-- The sidecar's linked-reference scan agrees with membership of the
request's pair among the stored reference pairs. -/
theorem refs_any_iff (refs : List RefEntry) (r : WriteReq) :
    (refs.any (fun x => x.trace_id == r.trace_id &&
      x.producer_event_id == r.producer_event_id) = true) ↔
      pairOf r ∈ refs.map refPair := by
  simp only [List.any_eq_true, List.mem_map, pairOf, refPair,
    Bool.and_eq_true, beq_iff_eq]
  constructor
  · rintro ⟨x, hx, h1, h2⟩
    exact ⟨x, hx, by simp [h1, h2]⟩
  · rintro ⟨x, hx, hEq⟩
    rcases Prod.mk.injEq _ _ _ _ ▸ hEq with h
    exact ⟨x, hx, (congrArg Prod.fst hEq), (congrArg Prod.snd hEq)⟩

/-- A repeat write of the same bytes preserves the store invariant,
extends the reference history by the write's pair, and returns a
descriptor carrying the original sidecar's creation fields. -/
theorem writeArtifact_step (b : String) (w0 r : WriteReq) (seen : List (String × String))
    (st : ArtifactStoreState) (hinv : dedupInv b w0 seen st) :
    dedupInv b w0 (seen ++ [pairOf r]) (writeArtifact r b st).2 ∧
    (writeArtifact r b st).1.created_at = w0.now ∧
    (writeArtifact r b st).1.byte_size = utf8Len b ∧
    (writeArtifact r b st).1.media_type = w0.media_type ∧
    (writeArtifact r b st).1.encoding = w0.encoding := by
  obtain ⟨hcount, hblob, sc, hmeta, h1, h2, h3, h4, h5⟩ := hinv
  obtain ⟨blobs0, metas0⟩ := st
  simp only [dedupInv] at *
  by_cases hlink : (sc.references.any (fun x => x.trace_id == r.trace_id &&
      x.producer_event_id == r.producer_event_id)) = true
  · have hmem : pairOf r ∈ dedupPairs seen := by
      rw [← h5]
      exact (refs_any_iff sc.references r).mp hlink
    have hsnoc : dedupPairs (seen ++ [pairOf r]) = dedupPairs seen := by
      rw [dedupPairs_snoc, if_pos (by simpa using hmem)]
    simp only [writeArtifact, hblob, hmeta, hlink, if_true, if_pos]
    exact ⟨⟨hcount, trivial, sc, rfl, h1, h2, h3, h4, by rw [hsnoc]; exact h5⟩,
      h1, h2, h3, h4⟩
  · have hnmem : pairOf r ∉ dedupPairs seen := by
      rw [← h5]
      intro hmem
      exact hlink ((refs_any_iff sc.references r).mpr hmem)
    have hsnoc : dedupPairs (seen ++ [pairOf r]) = dedupPairs seen ++ [pairOf r] := by
      rw [dedupPairs_snoc, if_neg (by simpa using hnmem)]
    simp only [writeArtifact, hblob, hmeta, hlink, if_false, Bool.false_eq_true]
    refine ⟨⟨hcount, trivial,
      { sc with references := sc.references ++ [⟨r.trace_id, r.producer_event_id, r.now⟩] },
      alookup_areplace _ _ _ _ hmeta, h1, h2, h3, h4, ?_⟩, h1, h2, h3, h4⟩
    simp only [List.map_append, h5, hsnoc, List.map_cons, List.map_nil]
    rfl

/-- The first write of absent bytes establishes the store invariant. -/
theorem writeArtifact_first (b : String) (r : WriteReq) (st0 : ArtifactStoreState)
    (hb : alookup (sha256Hex (bstr b)) st0.blobs = none)
    (hm : alookup (sha256Hex (bstr b)) st0.metas = none) :
    dedupInv b r [pairOf r] (writeArtifact r b st0).2 := by
  obtain ⟨blobs0, metas0⟩ := st0
  simp only [writeArtifact, hb, hm]
  refine ⟨?_, ?_, ?_⟩
  · simpa [countKey_append] using countKey_zero _ _ hb
  · exact alookup_append_right _ _ _ hb
  · refine ⟨_, alookup_append_right _ _ _ hm, rfl, rfl, rfl, rfl, ?_⟩
    rfl

/-- Iterating repeat writes preserves the invariant over the
accumulated history and every returned descriptor carries the original
creation fields. -/
theorem writeMany_inv (b : String) (w0 : WriteReq) :
    ∀ (rs : List WriteReq) (seen : List (String × String)) (st : ArtifactStoreState),
      dedupInv b w0 seen st →
      dedupInv b w0 (seen ++ rs.map pairOf) (writeMany b rs st).2 ∧
      ∀ d ∈ (writeMany b rs st).1,
        d.created_at = w0.now ∧ d.byte_size = utf8Len b ∧
        d.media_type = w0.media_type ∧ d.encoding = w0.encoding := by
  intro rs
  induction rs with
  | nil =>
    intro seen st hinv
    simpa [writeMany] using hinv
  | cons r rs ih =>
    intro seen st hinv
    obtain ⟨hinv1, hd⟩ := writeArtifact_step b w0 r seen st hinv
    obtain ⟨hinv2, hall⟩ := ih (seen ++ [pairOf r]) (writeArtifact r b st).2 hinv1
    constructor
    · simpa [writeMany, List.append_assoc] using hinv2
    · intro d hd2
      simp only [writeMany, List.mem_cons] at hd2
      rcases hd2 with hd2 | hd2
      · exact hd2 ▸ hd
      · exact hall d hd2

/-- C9: writing the same byte sequence N times, starting from a store
without that hash, leaves exactly one blob entry for `sha256(b)`; the
sidecar's reference list is the first-occurrence deduplication of the
`(trace_id, producer_event_id)` pairs — so re-writing an already-present
pair does not grow it, and N pairwise-distinct pairs give length N — and
every write after the first returns a descriptor carrying the original
sidecar's `created_at`, `byte_size`, `media_type` and `encoding`. -/
theorem artifact_dedup (b : String) (w0 : WriteReq) (ws : List WriteReq)
    (st0 : ArtifactStoreState)
    (hb : alookup (sha256Hex (bstr b)) st0.blobs = none)
    (hm : alookup (sha256Hex (bstr b)) st0.metas = none) :
    countKey (sha256Hex (bstr b)) (writeMany b (w0 :: ws) st0).2.blobs = 1 ∧
    (∃ sc : Sidecar,
      alookup (sha256Hex (bstr b)) (writeMany b (w0 :: ws) st0).2.metas = some sc ∧
      sc.references.map refPair = dedupPairs ((w0 :: ws).map pairOf) ∧
      sc.desc.created_at = w0.now ∧ sc.desc.byte_size = utf8Len b ∧
      sc.desc.media_type = w0.media_type ∧ sc.desc.encoding = w0.encoding) ∧
    (((w0 :: ws).map pairOf).Nodup →
      ∃ sc : Sidecar,
        alookup (sha256Hex (bstr b)) (writeMany b (w0 :: ws) st0).2.metas = some sc ∧
        sc.references.length = (w0 :: ws).length) ∧
    (∀ d ∈ (writeMany b (w0 :: ws) st0).1.tail,
      d.created_at = w0.now ∧ d.byte_size = utf8Len b ∧
      d.media_type = w0.media_type ∧ d.encoding = w0.encoding) := by
  have hfirst := writeArtifact_first b w0 st0 hb hm
  obtain ⟨hinv, hall⟩ := writeMany_inv b w0 ws [pairOf w0] (writeArtifact w0 b st0).2 hfirst
  obtain ⟨hcount, hblob, sc, hmeta, h1, h2, h3, h4, h5⟩ := hinv
  have hmany : writeMany b (w0 :: ws) st0 =
      ((writeArtifact w0 b st0).1 :: (writeMany b ws (writeArtifact w0 b st0).2).1,
        (writeMany b ws (writeArtifact w0 b st0).2).2) := rfl
  refine ⟨?_, ⟨sc, ?_, ?_, h1, h2, h3, h4⟩, ?_, ?_⟩
  · rw [hmany]
    exact hcount
  · rw [hmany]
    exact hmeta
  · simpa using h5
  · intro hnd
    refine ⟨sc, by rw [hmany]; exact hmeta, ?_⟩
    have hlen := congrArg List.length h5
    rw [dedupPairs_nodup _ (by simpa using hnd)] at hlen
    simpa using hlen
  · intro d hd
    rw [hmany] at hd
    exact hall d (by simpa using hd)

/-- Witness for C9: the same bytes written twice from two distinct
`(trace, producer_event)` pairs into an empty store. -/
theorem artifact_dedup_witness :
    countKey (sha256Hex (bstr "blob-bytes"))
      (writeMany "blob-bytes" [wReq0, wReq1] ⟨[], []⟩).2.blobs = 1 ∧
    (∃ sc : Sidecar,
      alookup (sha256Hex (bstr "blob-bytes"))
        (writeMany "blob-bytes" [wReq0, wReq1] ⟨[], []⟩).2.metas = some sc ∧
      sc.references.map refPair = dedupPairs ([wReq0, wReq1].map pairOf) ∧
      sc.desc.created_at = wReq0.now ∧ sc.desc.byte_size = utf8Len "blob-bytes" ∧
      sc.desc.media_type = wReq0.media_type ∧ sc.desc.encoding = wReq0.encoding) ∧
    (∃ sc : Sidecar,
      alookup (sha256Hex (bstr "blob-bytes"))
        (writeMany "blob-bytes" [wReq0, wReq1] ⟨[], []⟩).2.metas = some sc ∧
      sc.references.length = 2) ∧
    (∀ d ∈ (writeMany "blob-bytes" [wReq0, wReq1] ⟨[], []⟩).1.tail,
      d.created_at = wReq0.now ∧ d.byte_size = utf8Len "blob-bytes" ∧
      d.media_type = wReq0.media_type ∧ d.encoding = wReq0.encoding) := by
  have h := artifact_dedup "blob-bytes" wReq0 [wReq1] ⟨[], []⟩ rfl rfl
  refine ⟨h.1, h.2.1, ?_, h.2.2.2⟩
  obtain ⟨sc, hsc, hlen⟩ := h.2.2.1 (by decide)
  exact ⟨sc, hsc, by simpa using hlen⟩

end Coc
